/-
Verification of the PhotonLeap sequential ray-trace engine.

Shallow embedding of:
  * src/pyodide/trace.py   (refract, sphere intersection, trace_ray, get_n,
    get_n_after, n_from_sellmeier, the embedded glass library)
  * src/backend/trace_service.py (_interpolate_ray_at_z, _rms_radius,
    get_metrics_at_z, _rms_per_field_at_z, _global_weighted_rms,
    _best_focus_golden_section, optical_stack_to_surf_data, run_chromatic_shift)
  * src/backend/glass_materials.py (n_from_sellmeier, refractive_index_at_wavelength)
  * src/backend/coating_engine.py (is_hr_coating)
  * src/backend/monte_carlo_service.py (_jitter_surfaces)

Python floats are modelled as exact reals; the IEEE special values NaN and
±infinity, which the index-resolution code inspects explicitly, are modelled
by the dedicated type `PyVal`.  Python float division raises
`ZeroDivisionError` on a zero denominator, so the functions whose
denominators can be zero return `Except String`.  A Python `float("inf")`
produced or consumed as a sentinel (missing-field RMS) is modelled by
`Option ℝ` with `none` = infinity / NaN, as noted at each definition.
-/

import Mathlib

open scoped Classical

noncomputable section

/-! ## Python value model -/

/-- A Python/IEEE-754 double as the index-resolution code sees it:
NaN, +inf, -inf, or a finite real. -/
inductive PyVal where
  | nan : PyVal
  | inf : PyVal
  | ninf : PyVal
  | fin : ℝ → PyVal

/-- `np.isnan`. -/
def PyVal.isNan : PyVal → Bool
  | .nan => true
  | _ => false

/-- `np.isfinite`. -/
def PyVal.isFinite : PyVal → Bool
  | .fin _ => true
  | _ => false

/-- Project a `PyVal` to a real; only ever used after the value is known
to be finite. -/
def PyVal.toReal : PyVal → ℝ
  | .fin x => x
  | _ => 0

/-- IEEE comparison `v < r` with a float literal on the right:
NaN compares false, -inf compares true. -/
def PyVal.ltR : PyVal → ℝ → Prop
  | .nan, _ => False
  | .inf, _ => False
  | .ninf, _ => True
  | .fin x, r => x < r

/-- IEEE comparison `v <= r`. -/
def PyVal.leR : PyVal → ℝ → Prop
  | .nan, _ => False
  | .inf, _ => False
  | .ninf, _ => True
  | .fin x, r => x ≤ r

/-- IEEE comparison `v > r`. -/
def PyVal.gtR : PyVal → ℝ → Prop
  | .nan, _ => False
  | .inf, _ => True
  | .ninf, _ => False
  | .fin x, r => r < x

/-- Python `float(v or d)` for a possibly missing / possibly falsy float
field: a missing key, `None`, or `0.0` all yield the default `d`.
NaN and ±inf are truthy in Python and pass through. -/
def pyOrDefault (v : Option PyVal) (d : ℝ) : PyVal :=
  match v with
  | none => .fin d
  | some (.fin x) => if x = 0 then .fin d else .fin x
  | some w => w

/-- Python two-argument `min(a, b)` (a float literal first): returns `b`
iff `b < a`, so `min(10.0, nan) = 10.0`. -/
def pyMinRV (a : ℝ) (b : PyVal) : PyVal :=
  if b.ltR a then b else .fin a

/-- Python two-argument `max(a, b)` (a float literal first): returns `b`
iff `b > a`, so `max(0.1, nan) = 0.1`. -/
def pyMaxRV (a : ℝ) (b : PyVal) : PyVal :=
  if b.gtR a then b else .fin a

/-- Python `a or b` on strings: empty string is falsy. -/
def pyOrS (a b : String) : String :=
  if a = "" then b else a

/-- ASCII lower-casing of one character (model of Python `str.lower` on
the ASCII material/type/coating names used here). -/
def pyLowerChar (c : Char) : Char :=
  if 65 ≤ c.toNat ∧ c.toNat ≤ 90 then Char.ofNat (c.toNat + 32) else c

/-- Model of Python `str.lower()`. -/
def pyLower (s : String) : String := ⟨s.data.map pyLowerChar⟩

/-- Python `str.strip()` whitespace set. -/
def pyIsSpace (c : Char) : Bool :=
  c = ' ' || c = '\t' || c = '\n' || c = '\r' || c = '\x0c' || c = '\x0b'

/-- Drop leading whitespace characters. -/
def dropSpaces : List Char → List Char
  | [] => []
  | c :: rest => if pyIsSpace c then dropSpaces rest else c :: rest

/-- Model of Python `str.strip()`. -/
def pyStrip (s : String) : String :=
  ⟨(dropSpaces (dropSpaces s.data).reverse).reverse⟩

/-! ## Data model: one optical surface (a frontend surface dict) -/

/-- Sellmeier coefficient set `{B: [...], C: [...]}`. -/
structure Sellmeier where
  B : List ℝ
  C : List ℝ

/-- One surface dict as produced by the frontend System Editor.  Numeric
fields that the code reads with `float(s.get(k, d) or d)` are stored
directly as reals with the default folded in; `refractiveIndex` keeps the
full Python float range (`Option` = key missing or `None`). -/
structure Surface where
  radius : ℝ := 0
  thickness : ℝ := 0
  diameter : ℝ := 25
  material : String := ""
  stype : String := ""
  refractiveIndex : Option PyVal := none
  sellmeierCoefficients : Option Sellmeier := none
  coating : String := ""
  radiusTolerance : ℝ := 0
  thicknessTolerance : ℝ := 0

/-- trace.py: `semi = float(s.get("diameter", 25) or 25) / 2.0`. -/
def semiOf (s : Surface) : ℝ :=
  (if s.diameter = 0 then 25 else s.diameter) / 2

/-! ## trace.py constants -/

/-- trace.py `NUDGE_EPS`. -/
def NUDGE_EPS : ℝ := 0.001

/-- trace.py `T_MIN`. -/
def T_MIN : ℝ := 1e-4

/-- trace.py `MAX_SURFACES`. -/
def MAX_SURFACES : ℕ := 100

/-! ## trace.py index resolution: `n_from_sellmeier`, `_GLASS_LIBRARY`,
`_refractive_index_at_wavelength`, `get_n`, `get_n_after`

Python float division raises `ZeroDivisionError` when the denominator is
exactly `0.0`, so the Sellmeier sum returns `Except String ℝ`. -/

/-- The running sum `n2 += B[i] * lam2 / (lam2 - C[i])` over (B, C) pairs,
raising on an exactly-zero denominator as Python float division does. -/
def sellmeierSum (lam2 : ℝ) : List (ℝ × ℝ) → ℝ → Except String ℝ
  | [], acc => .ok acc
  | (b, c) :: rest, acc =>
      if lam2 - c = 0 then .error "ZeroDivisionError"
      else sellmeierSum lam2 rest (acc + b * lam2 / (lam2 - c))

/-- trace.py `n_from_sellmeier(wvl_nm, sellmeier)`:
`n² = 1 + Σ Bᵢλ²/(λ²-Cᵢ)`, λ in µm; returns 1.52 when either coefficient
list is shorter than 3; final value `sqrt(max(1.0, n2))`. -/
def n_from_sellmeier (wvlNm : ℝ) (sm : Sellmeier) : Except String ℝ :=
  let wvlUm := wvlNm / 1000
  if sm.B.length < 3 ∨ sm.C.length < 3 then .ok 1.52
  else
    match sellmeierSum (wvlUm * wvlUm) ((sm.B.zip sm.C).take 3) 1 with
    | .error e => .error e
    | .ok n2 => .ok (Real.sqrt (max 1 n2))

/-- One `_GLASS_LIBRARY` entry: a Sellmeier record, a constant-index
record, or a string alias of another key. -/
inductive GlassEntry where
  | sellm : Sellmeier → GlassEntry
  | const : ℝ → GlassEntry
  | alias : String → GlassEntry

/-- trace.py `_GLASS_LIBRARY` (embedded glass library). -/
def glassLibrary : String → Option GlassEntry := fun key =>
  if key = "air" then some (.const 1.0)
  else if key = "n-bk7" then some (.sellm ⟨[1.03961212, 0.231792344, 1.01046945], [0.00600069867, 0.0200179144, 103.560653]⟩)
  else if key = "bk7" then some (.alias "n-bk7")
  else if key = "nbk7" then some (.alias "n-bk7")
  else if key = "n-sf11" then some (.sellm ⟨[1.73848403, 0.31116824, 1.17490871], [0.0133711172, 0.0619001176, 121.419942]⟩)
  else if key = "n-sf5" then some (.sellm ⟨[1.31038764, 0.196681836, 0.966129764], [0.00958633072, 0.0457627625, 99.2753302]⟩)
  else if key = "n-sf6" then some (.sellm ⟨[1.77931763, 0.33814987, 1.64430452], [0.0133711172, 0.0619001176, 166.886499]⟩)
  else if key = "n-sf10" then some (.sellm ⟨[1.61625974, 0.259229334, 0.96887106], [0.0106200162, 0.0473625942, 119.248795]⟩)
  else if key = "n-sf14" then some (.sellm ⟨[1.69022361, 0.288683042, 1.7045187], [0.01306176267, 0.0619001176, 147.468793]⟩)
  else if key = "n-f2" then some (.sellm ⟨[1.31038764, 0.196681836, 0.966129764], [0.00958633072, 0.0457627625, 99.2753302]⟩)
  else if key = "f2" then some (.alias "n-f2")
  else if key = "n-sk2" then some (.sellm ⟨[1.34317774, 0.241144399, 0.994317969], [0.00704687339, 0.0229005, 92.7508526]⟩)
  else if key = "fused silica" then some (.sellm ⟨[0.6961663, 0.4079426, 0.8974794], [0.004679148, 0.01351206, 97.93432]⟩)
  else if key = "silica" then some (.alias "fused silica")
  else if key = "fused-silica" then some (.alias "fused silica")
  else if key = "n-baf10" then some (.sellm ⟨[1.5851495, 0.143571385, 1.08521269], [0.00909730952, 0.0424520636, 105.613573]⟩)
  else if key = "n-lak9" then some (.sellm ⟨[1.41673927, 0.126605356, 1.28217827], [0.00906333117, 0.0493226978, 95.6403971]⟩)
  else if key = "h-laf7" then some (.sellm ⟨[1.66842615, 0.298521883, 1.07794363], [0.00704687339, 0.0315631177, 95.2779353]⟩)
  else if key = "calcium fluoride" then some (.sellm ⟨[0.5675888, 0.4710914, 3.8484723], [0.00252643, 0.01007833, 1200.556]⟩)
  else if key = "caf2" then some (.alias "calcium fluoride")
  else if key = "magnesium fluoride" then some (.sellm ⟨[0.48755108, 0.39875031, 2.3120353], [0.001882178, 0.008951888, 566.13559]⟩)
  else if key = "mgf2" then some (.alias "magnesium fluoride")
  else if key = "sapphire" then some (.sellm ⟨[1.4313493, 0.65054713, 5.3414021], [0.0052799261, 0.0142382647, 325.017834]⟩)
  else if key = "n-k5" then some (.sellm ⟨[1.15131343, 0.218304662, 0.839477603], [0.00704687339, 0.0229005, 95.2593215]⟩)
  else if key = "n-sk16" then some (.sellm ⟨[1.34317774, 0.241144399, 0.994317969], [0.00704687339, 0.0229005, 92.7508526]⟩)
  else if key = "n-baf4" then some (.sellm ⟨[1.31038764, 0.196681836, 0.966129764], [0.00958633072, 0.0457627625, 99.2753302]⟩)
  else if key = "n-sf6ht" then some (.sellm ⟨[1.77931763, 0.33814987, 1.64430452], [0.0133711172, 0.0619001176, 166.886499]⟩)
  else if key = "n-lak14" then some (.sellm ⟨[1.49172984, 0.127950879, 1.14545231], [0.00779980626, 0.0315631177, 95.2779353]⟩)
  else if key = "n-bk10" then some (.sellm ⟨[1.04502733, 0.231755984, 0.96817704], [0.00600069867, 0.0200179144, 103.560653]⟩)
  else if key = "n-sf57" then some (.sellm ⟨[1.81651371, 0.428893641, 1.07186278], [0.0143704198, 0.0592801172, 121.419942]⟩)
  else if key = "n-sf66" then some (.sellm ⟨[1.85504134, 0.420402765, 1.31047689], [0.0162382647, 0.0619001176, 121.419942]⟩)
  else if key = "n-sf15" then some (.sellm ⟨[1.56032691, 0.276257333, 0.947719839], [0.00958633072, 0.0457627625, 99.2753302]⟩)
  else none

/-- trace.py `_refractive_index_at_wavelength(wvl_nm, material_name, n_fallback)`:
n(λ) from the embedded glass library, else the fallback value. -/
def refractiveIndexAtWavelength (wvlNm : ℝ) (materialName : String)
    (nFallback : PyVal) : Except String PyVal :=
  if pyStrip materialName = "" then .ok nFallback
  else if nFallback.leR 1.001 then .ok (.fin 1.0)
  else
    let key := pyStrip (pyLower materialName)
    let entry0 := glassLibrary key
    let entry1 :=
      match entry0 with
      | some e => some e
      | none =>
          match (if key.startsWith "n-" then glassLibrary (key.drop 2) else none) with
          | some e => some e
          | none => if key = "n-bk" then glassLibrary "n-bk7" else none
    match entry1 with
    | none => .ok nFallback
    | some e =>
        -- `if isinstance(entry, str): entry = lib.get(entry, {})`
        let e2 : Option GlassEntry :=
          match e with
          | .alias s => glassLibrary s
          | x => some x
        match e2 with
        | some (.alias _) => .ok nFallback       -- alias chain: not a dict
        | some (.sellm sm) =>
            match n_from_sellmeier wvlNm sm with
            | .error e => .error e
            | .ok n => .ok (.fin n)
        | some (.const n) => .ok (.fin n)
        | none => .ok nFallback                  -- empty dict: no formula

/-- The value of `n` in `get_n` before the NaN/non-positive/non-finite
repair: Sellmeier if the surface has coefficients, else the
material-library/fallback lookup. -/
def getNRaw (surface : Surface) (wvlNm : ℝ) : Except String PyVal :=
  match surface.sellmeierCoefficients with
  | some sm =>
      match n_from_sellmeier wvlNm sm with
      | .error e => .error e
      | .ok x => .ok (.fin x)
  | none =>
      refractiveIndexAtWavelength wvlNm surface.material
        (pyOrDefault surface.refractiveIndex 1.52)

/-- trace.py `get_n(surface, wvl_nm)`: refractive index for a surface at a
wavelength, repaired if NaN/non-positive/non-finite, then clamped by
`max(0.1, min(10.0, n))` with Python min/max semantics. -/
def get_n (surface : Surface) (wvlNm : ℝ) : Except String ℝ :=
  match getNRaw surface wvlNm with
  | .error e => .error e
  | .ok n =>
      let n := if n.isNan = true ∨ n.leR 0 ∨ ¬ n.isFinite = true
               then pyOrDefault surface.refractiveIndex 1.52 else n
      .ok (pyMaxRV 0.1 (pyMinRV 10.0 n)).toReal

/-- trace.py `get_n_after(surfaces, i, s, wvl_nm)`: index of the medium
after surface `i`; strictly 1.0 for the last surface and for a surface
whose material or type is tagged "air". -/
def get_n_after (surfaces : List Surface) (i : ℕ) (s : Surface) (wvlNm : ℝ) :
    Except String ℝ :=
  if i = surfaces.length - 1 then .ok 1.0
  else
    if pyLower (pyStrip s.material) = "air" ∨ pyLower (pyStrip s.stype) = "air" then .ok 1.0
    else get_n s wvlNm

/-! ## trace.py `refract` -/

/-- `refract` local `eta = n1 / n2`. -/
def refractEta (n1 n2 : ℝ) : ℝ := n1 / n2

/-- `refract` local `cos_theta_i = -(nx*vx + ny*vy)`. -/
def refractCosThetaI (vz vy nx ny : ℝ) : ℝ := -(nx * vz + ny * vy)

/-- `refract` local `sin2_t = 1.0 - eta*eta*(1.0 - cos_theta_i*cos_theta_i)`. -/
def refractSin2T (vz vy nx ny n1 n2 : ℝ) : ℝ :=
  1 - refractEta n1 n2 * refractEta n1 n2 *
    (1 - refractCosThetaI vz vy nx ny * refractCosThetaI vz vy nx ny)

/-- `refract` local `coeff = eta*cos_theta_i - cos_theta_t`
with `cos_theta_t = np.sqrt(sin2_t)`. -/
def refractCoeff (vz vy nx ny n1 n2 : ℝ) : ℝ :=
  refractEta n1 n2 * refractCosThetaI vz vy nx ny -
    Real.sqrt (refractSin2T vz vy nx ny n1 n2)

/-- `refract` local `out_dz = eta*vx + coeff*nx` (before renormalization). -/
def refractOutDz (vz vy nx ny n1 n2 : ℝ) : ℝ :=
  refractEta n1 n2 * vz + refractCoeff vz vy nx ny n1 n2 * nx

/-- `refract` local `out_dy = eta*vy + coeff*ny` (before renormalization). -/
def refractOutDy (vz vy nx ny n1 n2 : ℝ) : ℝ :=
  refractEta n1 n2 * vy + refractCoeff vz vy nx ny n1 n2 * ny

/-- `refract` local `nrm = np.sqrt(out_dz*out_dz + out_dy*out_dy)`. -/
def refractNrm (vz vy nx ny n1 n2 : ℝ) : ℝ :=
  Real.sqrt (refractOutDz vz vy nx ny n1 n2 * refractOutDz vz vy nx ny n1 n2 +
    refractOutDy vz vy nx ny n1 n2 * refractOutDy vz vy nx ny n1 n2)

/-- trace.py `refract(v_in, normal, n1, n2)`: vector form of Snell's law.
Returns `(out_dz, out_dy, tir)`; the Python diagnostics dict is dropped.
`v_in = (vz, vy)`, `normal = (nx, ny)` points into the incident medium;
the locals of the Python function are the `refract...` definitions above. -/
def refract (vz vy nx ny n1 n2 : ℝ) : ℝ × ℝ × Bool :=
  if n2 < 1e-9 then (0, 0, true)
  else if refractSin2T vz vy nx ny n1 n2 < 0 then (0, 0, true)
  else if refractNrm vz vy nx ny n1 n2 < 1e-12 then (vz, vy, false)
  else (refractOutDz vz vy nx ny n1 n2 / refractNrm vz vy nx ny n1 n2,
        refractOutDy vz vy nx ny n1 n2 / refractNrm vz vy nx ny n1 n2, false)

/-! ## trace.py `trace_ray` -/

/-- Outcome of the spherical-surface intersection block of `trace_ray`
(lines 268-295): quadratic discriminant negative ("missed surface"), no
root above `T_MIN` ("numerical"), or the chosen parameter `t_hit`. -/
inductive SphereHit where
  | missed : SphereHit
  | numerical : SphereHit
  | hit : ℝ → SphereHit

/-- `trace_ray` local `a = ray_dz**2 + ray_dy**2`. -/
def sphereA (rayDz rayDy : ℝ) : ℝ := rayDz ^ 2 + rayDy ^ 2

/-- `trace_ray` local `b = -2.0 * (ray_dz*Lz + ray_dy*Ly)` with
`Lz = center_z - ray_z = z_vertex + radius - ray_z`, `Ly = 0 - ray_y`. -/
def sphereB (rayZ rayY rayDz rayDy zVertex radius : ℝ) : ℝ :=
  -2 * (rayDz * (zVertex + radius - rayZ) + rayDy * (0 - rayY))

/-- `trace_ray` local `c_coef = Lz**2 + Ly**2 - radius**2`. -/
def sphereCoefC (rayZ rayY zVertex radius : ℝ) : ℝ :=
  (zVertex + radius - rayZ) ^ 2 + (0 - rayY) ^ 2 - radius ^ 2

/-- `trace_ray` local `disc = b**2 - 4*a*c_coef`. -/
def sphereDisc (rayZ rayY rayDz rayDy zVertex radius : ℝ) : ℝ :=
  sphereB rayZ rayY rayDz rayDy zVertex radius ^ 2 -
    4 * sphereA rayDz rayDy * sphereCoefC rayZ rayY zVertex radius

/-- `trace_ray` local `t1 = (-b - sqrt_d) / (2*a)`. -/
def sphereT1 (rayZ rayY rayDz rayDy zVertex radius : ℝ) : ℝ :=
  (-sphereB rayZ rayY rayDz rayDy zVertex radius -
    Real.sqrt (sphereDisc rayZ rayY rayDz rayDy zVertex radius)) /
    (2 * sphereA rayDz rayDy)

/-- `trace_ray` local `t2 = (-b + sqrt_d) / (2*a)`. -/
def sphereT2 (rayZ rayY rayDz rayDy zVertex radius : ℝ) : ℝ :=
  (-sphereB rayZ rayY rayDz rayDy zVertex radius +
    Real.sqrt (sphereDisc rayZ rayY rayDz rayDy zVertex radius)) /
    (2 * sphereA rayDz rayDy)

/-- The spherical intersection block of `trace_ray` (lines 268-295):
circle center at `z_vertex + radius`, quadratic `a t² + b t + c = 0`,
smallest root strictly greater than `T_MIN`. -/
def sphereIntersect (rayZ rayY rayDz rayDy zVertex radius : ℝ) : SphereHit :=
  if sphereDisc rayZ rayY rayDz rayDy zVertex radius < 0 then .missed
  -- candidates = [t for t in (t1, t2) if t > T_MIN]; t_hit = min(candidates)
  else if sphereT1 rayZ rayY rayDz rayDy zVertex radius > T_MIN then
    if sphereT2 rayZ rayY rayDz rayDy zVertex radius > T_MIN then
      .hit (min (sphereT1 rayZ rayY rayDz rayDy zVertex radius)
                (sphereT2 rayZ rayY rayDz rayDy zVertex radius))
    else .hit (sphereT1 rayZ rayY rayDz rayDy zVertex radius)
  else if sphereT2 rayZ rayY rayDz rayDy zVertex radius > T_MIN then
    .hit (sphereT2 rayZ rayY rayDz rayDy zVertex radius)
  else .numerical

/-- trace.py lines 318-324: the MATCH AUDIT mat-name
`str(s.get("material") or s.get("type") or "?").strip()`. -/
def auditMatName (s : Surface) : String :=
  pyStrip (pyOrS s.material (pyOrS s.stype "?"))

/-- trace.py lines 321-324: raise `ValueError` when a surface named "air"
resolved to an index away from 1.0 (the f-string detail is dropped). -/
def matchAudit (s : Surface) (nAfter : ℝ) : Except String Unit :=
  if pyLower (auditMatName s) = "air" ∧ |nAfter - 1.0| > 1e-6
  then .error "MATCH AUDIT FAIL"
  else .ok ()

/-- State of one ray after the per-surface loop of `trace_ray`: the hit
points appended by this (suffix of the) loop, the `completed_all` flag,
and the final ray position and direction. -/
structure LoopOut where
  hits : List (ℝ × ℝ)
  completedAll : Bool
  rayZ : ℝ
  rayY : ℝ
  rayDz : ℝ
  rayDy : ℝ

/-- The intersection step of the `trace_ray` loop (step 1, lines 246-302):
the hit point and the (already orientation-flipped) normal for one surface,
or `none` when the loop `break`s with a missed-surface or numerical
condition before recording anything. -/
def surfaceHit (s : Surface) (zVertex rayZ rayY rayDz rayDy : ℝ) :
    Option (ℝ × ℝ × ℝ × ℝ) :=
  if s.radius = 0 ∨ |s.radius| > 1e10 then
    -- plano branch: t = (surface_z - ray_z) / ray_dz
    if |rayDz| < 1e-12 then none
    else
      let tHit := (zVertex - rayZ) / rayDz
      if tHit < -1e-12 then none
      else
        let tHit := if tHit < 0 then 0 else tHit
        let ySurf := rayY + tHit * rayDy
        let normal : ℝ × ℝ := if rayDz > 0 then (1, 0) else (-1, 0)
        let normal := if rayDz * normal.1 + rayDy * normal.2 > 0
                      then (-normal.1, -normal.2) else normal
        some (zVertex, ySurf, normal)
  else
    match sphereIntersect rayZ rayY rayDz rayDy zVertex s.radius with
    | .missed => none
    | .numerical => none
    | .hit tHit =>
        let zSurf := rayZ + tHit * rayDz
        let ySurf := rayY + tHit * rayDy
        let nx := (zSurf - (zVertex + s.radius)) / |s.radius|
        let ny := if |s.radius| > 1e-12 then (ySurf - 0) / |s.radius| else 0
        let normal := if rayDz * nx + rayDy * ny > 0 then (-nx, -ny) else (nx, ny)
        some (zSurf, ySurf, normal)

/-- The per-surface loop of `trace_ray` (lines 229-355).  Surfaces are
passed zipped with their absolute z-vertices (`cumulative_z[i]`); `i` is
the loop index; a Python `break` returns `completed_all = false` with no
further hit appended; a Python `raise` (the MATCH AUDIT or a
`ZeroDivisionError` inside `get_n`) is an `Except.error`. -/
def traceLoop (surfaces : List Surface) (wvlNm : ℝ) :
    ℕ → List (Surface × ℝ) → ℝ → ℝ → ℝ → ℝ → ℝ → Except String LoopOut
  | _, [], rayZ, rayY, rayDz, rayDy, _ =>
      .ok ⟨[], true, rayZ, rayY, rayDz, rayDy⟩
  | i, (s, zVertex) :: rest, rayZ, rayY, rayDz, rayDy, nBefore =>
      if MAX_SURFACES ≤ i then .ok ⟨[], false, rayZ, rayY, rayDz, rayDy⟩
      else
        match get_n_after surfaces i s wvlNm with
        | .error e => .error e
        | .ok nAfter =>
          if |rayDz| < 1e-12 then .ok ⟨[], false, rayZ, rayY, rayDz, rayDy⟩
          else
            -- 1. intersection with surface (missed/numerical: break)
            match surfaceHit s zVertex rayZ rayY rayDz rayDy with
            | none => .ok ⟨[], false, rayZ, rayY, rayDz, rayDy⟩
            | some (zSurf, ySurf, nx, ny) =>
              -- aperture test against semi = diameter/2
              if |ySurf| > semiOf s then .ok ⟨[], false, rayZ, rayY, rayDz, rayDy⟩
              else
                -- 2. hit point recorded; 3. MATCH AUDIT then refraction
                match matchAudit s nAfter with
                | .error e => .error e
                | .ok _ =>
                  let r := refract rayDz rayDy nx ny nBefore nAfter
                  if r.2.2 = true then
                    .ok ⟨[(zSurf, ySurf)], false, zSurf, ySurf, r.1, r.2.1⟩
                  else if |r.1| < 1e-12 ∧ |r.2.1| < 1e-12 then
                    .ok ⟨[(zSurf, ySurf)], false, zSurf, ySurf, r.1, r.2.1⟩
                  else
                    -- 4. index hand-off; 5. epsilon nudge; next surface
                    match traceLoop surfaces wvlNm (i + 1) rest
                        (zSurf + r.1 * NUDGE_EPS) (ySurf + r.2.1 * NUDGE_EPS)
                        r.1 r.2.1 nAfter with
                    | .error e => .error e
                    | .ok out =>
                        .ok ⟨(zSurf, ySurf) :: out.hits, out.completedAll,
                             out.rayZ, out.rayY, out.rayDz, out.rayDy⟩

/-- trace.py `trace_ray(...)`: the recorded polyline, starting at the ray
origin, one hit per traversed surface, extended to `z_target` only when
every surface was completed. -/
def trace_ray (rayZ rayY rayDz rayDy : ℝ) (surfaces : List Surface)
    (wvlNm : ℝ) (cumulativeZ : List ℝ) (zTarget : ℝ) :
    Except String (List (ℝ × ℝ)) :=
  match traceLoop surfaces wvlNm 0 (surfaces.zip cumulativeZ)
      rayZ rayY rayDz rayDy 1.0 with
  | .error e => .error e
  | .ok out =>
      let path := (rayZ, rayY) :: out.hits
      -- 6. final propagation only if the ray completed all surfaces
      if out.completedAll = true ∧ |out.rayDz| > 1e-12 ∧ out.rayZ < zTarget then
        let tExt := (zTarget - out.rayZ) / out.rayDz
        if tExt > 0 then .ok (path ++ [(zTarget, out.rayY + out.rayDy * tExt)])
        else .ok path
      else .ok path

/-! ## backend trace_service.py: metrics engine -/

/-- Last two points of the list `p0 :: p1 :: rest` (for the
`z_vals[-2], z_vals[-1]` extrapolation branch). -/
def lastTwo (p0 p1 : ℝ × ℝ) : List (ℝ × ℝ) → (ℝ × ℝ) × (ℝ × ℝ)
  | [] => (p0, p1)
  | p2 :: rest => lastTwo p1 p2 rest

/-- The local `slope = dy / dz if abs(dz) > 1e-12 else 0.0` of
`_interpolate_ray_at_z`, for the segment from `q0` to `q1`. -/
def segmentSlope (q0 q1 : ℝ × ℝ) : ℝ :=
  if |q1.1 - q0.1| > 1e-12 then (q1.2 - q0.2) / (q1.1 - q0.1) else 0

/-- The `for i in range(len(pts) - 1)` segment search of
`_interpolate_ray_at_z`: first consecutive pair with `z0 <= z_pos <= z1`. -/
def segSearch (zPos : ℝ) : List (ℝ × ℝ) → Option (ℝ × ℝ)
  | p0 :: p1 :: rest =>
      if p0.1 ≤ zPos ∧ zPos ≤ p1.1 then
        let t := if |p1.1 - p0.1| > 1e-12 then (zPos - p0.1) / (p1.1 - p0.1) else 0
        some (p0.2 + t * (p1.2 - p0.2), segmentSlope p0 p1)
      else segSearch zPos (p1 :: rest)
  | _ => none

/-- trace_service.py `_interpolate_ray_at_z(ray, z_pos)`: `(y, slope)` of a
ray polyline at `z_pos`; extrapolates with the first or last segment's
slope outside the recorded z-range; `none` models Python `(None, None)`. -/
def interpolate_ray_at_z (ray : List (ℝ × ℝ)) (zPos : ℝ) : Option (ℝ × ℝ) :=
  match ray with
  | p0 :: p1 :: rest =>
      if zPos ≤ ((p0 :: p1 :: rest).map Prod.fst).foldl min p0.1 then
        some (p0.2 + segmentSlope p0 p1 * (zPos - p0.1), segmentSlope p0 p1)
      else if zPos ≥ ((p0 :: p1 :: rest).map Prod.fst).foldl max p0.1 then
        some ((lastTwo p0 p1 rest).2.2 +
          segmentSlope (lastTwo p0 p1 rest).1 (lastTwo p0 p1 rest).2 *
            (zPos - (lastTwo p0 p1 rest).2.1),
          segmentSlope (lastTwo p0 p1 rest).1 (lastTwo p0 p1 rest).2)
      else segSearch zPos (p0 :: p1 :: rest)
  | _ => none

/-- trace_service.py `_rms_radius(y_vals)`:
`sqrt(max(0, mean(y²) - mean(y)²))`; `none` for an empty input. -/
def rms_radius (yVals : List ℝ) : Option ℝ :=
  if yVals = [] then none
  else
    let meanY2 := (yVals.map (fun y => y ^ 2)).sum / (yVals.length : ℝ)
    let meanY := yVals.sum / (yVals.length : ℝ)
    some (Real.sqrt (max 0 (meanY2 - meanY ^ 2)))

/-- The metrics record returned by `get_metrics_at_z`. -/
structure Metrics where
  rmsRadius : Option ℝ
  beamWidth : Option ℝ
  chiefRayAngle : Option ℝ
  yCentroid : Option ℝ
  numRays : ℕ

/-- The "no data" result: all fields null, `numRays = 0`. -/
def noDataMetrics : Metrics := ⟨none, none, none, none, 0⟩

/-- Comparison of two Python floats where `none` models `float("inf")`
(`inf < inf` is false, `x < inf` is true for finite `x`). -/
def optLtInf : Option ℝ → Option ℝ → Prop
  | some x, some y => x < y
  | some _, none => True
  | none, _ => False

/-- Python `min(range(len(keys)), key=...)` with `none` = `inf` keys:
index of the first minimal key (`min` keeps the earliest on ties). -/
def pyArgminAux (draws : List (Option ℝ)) : ℕ → ℕ → Option ℝ → ℕ :=
  match draws with
  | [] => fun _ best _ => best
  | k :: rest => fun i best bestKey =>
      if optLtInf k bestKey then pyArgminAux rest (i + 1) i k
      else pyArgminAux rest (i + 1) best bestKey

/-- First index of the minimal key in a list (`none` = infinity). -/
def pyArgmin : List (Option ℝ) → ℕ
  | [] => 0
  | k :: rest => pyArgminAux rest 1 0 k

/-- trace_service.py `get_metrics_at_z(z_pos, ray_data)`. -/
def get_metrics_at_z (zPos : ℝ) (rayData : List (List (ℝ × ℝ))) : Metrics :=
  let interpolated := rayData.filterMap (fun ray => interpolate_ray_at_z ray zPos)
  if interpolated = [] then noDataMetrics
  else
    let yVals := interpolated.map Prod.fst
    let yMean := yVals.sum / (yVals.length : ℝ)
    let rms := rms_radius yVals
    let beamWidth := yVals.foldl max (yVals.headD 0) - yVals.foldl min (yVals.headD 0)
    let chiefIdx := pyArgmin (rayData.map fun ray =>
      match ray with
      | [] => none
      | p :: _ => some |p.2|)
    let chiefSlope := (interpolate_ray_at_z (rayData.getD chiefIdx []) zPos).map Prod.snd
    let chiefRayAngle := chiefSlope.map fun sl => Real.arctan sl * (180 / Real.pi)
    ⟨rms, some beamWidth, chiefRayAngle, some yMean, yVals.length⟩

/-! ## backend trace_service.py: focus search -/

/-- trace_service.py `_rms_per_field_at_z`: per-field RMS at `z_pos`;
`none` models the `float("inf")` recorded for a field with no rays. -/
def rms_per_field_at_z (raysByField : List (List (List (ℝ × ℝ)))) (zPos : ℝ) :
    List (Option ℝ) :=
  raysByField.map fun fieldRays => (get_metrics_at_z zPos fieldRays).rmsRadius

/-- trace_service.py `_global_weighted_rms(rms_per_field, weights)`:
`sqrt(Σ w·rms²)` over entries with `rms < 1e10` and `w > 0`; returns
`none` (Python `float("inf")`) when the accumulated total is not
positive. -/
def global_weighted_rms (rmsPerField : List (Option ℝ)) (weights : List ℝ) :
    Option ℝ :=
  let total := ((rmsPerField.zip weights).map fun p =>
    match p.1 with
    | some rms => if rms < 1e10 ∧ p.2 > 0 then p.2 * rms ^ 2 else 0
    | none => 0).sum
  if total > 0 then some (Real.sqrt total) else none

/-- Modelled from the spec (§4.4, claim C3): the focus objective
`RMS_global(z) = sqrt(Σ wᵢ · RMS_i(z)²)`, fields with no valid rays
excluded from the sum (their weight dropped). -/
def specGlobalRms (rmsPerField : List (Option ℝ)) (weights : List ℝ) : ℝ :=
  Real.sqrt (((rmsPerField.zip weights).map fun p =>
    match p.1 with
    | some rms => p.2 * rms ^ 2
    | none => 0).sum)

/-- trace_service.py `_best_focus_golden_section` weights:
`[1, 0, 0, ...]` for On-Axis, `[1/max(1, n)] * n` otherwise. -/
def focusWeights (focusMode : String) (nFields : ℕ) : List ℝ :=
  if focusMode = "On-Axis" then
    if nFields ≠ 0 then 1.0 :: List.replicate (nFields - 1) 0.0 else [1.0]
  else List.replicate nFields (1.0 / (max 1 nFields : ℕ))

/-- The pure-Python golden-section loop of `_best_focus_golden_section`
(the scipy `minimize_scalar` path is an external library; the in-repo
reference loop is the `except ImportError` branch).  Returns the final
bracket `(z_a, z_b)`. -/
def goldenSectionLoop (objective : ℝ → Option ℝ) : ℕ → ℝ → ℝ → ℝ → ℝ × ℝ
  | 0, _, za, zb => (za, zb)
  | n + 1, tol, za, zb =>
      if zb - za ≤ tol then (za, zb)
      else
        let phi := (1 + Real.sqrt 5) / 2
        let zc := zb - (zb - za) / phi
        let zd := za + (zb - za) / phi
        if optLtInf (objective zc) (objective zd) then
          goldenSectionLoop objective n tol za zd
        else goldenSectionLoop objective n tol zc zb

/-- trace_service.py `_best_focus_golden_section(rays_by_field, z_lo, z_hi,
focus_mode, tol=1e-6, max_iter=80)`: bracket midpoint minimizing the
global weighted RMS. -/
def best_focus_golden_section (raysByField : List (List (List (ℝ × ℝ))))
    (zLo zHi : ℝ) (focusMode : String := "On-Axis")
    (tol : ℝ := 1e-6) (maxIter : ℕ := 80) : ℝ × Option ℝ :=
  let weights := focusWeights focusMode raysByField.length
  let objective := fun z => global_weighted_rms (rms_per_field_at_z raysByField z) weights
  let zab := goldenSectionLoop objective maxIter tol zLo zHi
  let zMid := (zab.1 + zab.2) / 2
  (zMid, objective zMid)

/-! ## backend glass_materials.py and coating_engine.py -/

/-- glass_materials.py `n_from_sellmeier(lambda_nm, coeffs)`:
`n² = 1 + Σ Bᵢλ²/(λ²-Cᵢ)` over `range(min(3, len(B), len(C)))`,
result `max(n2, 1.0) ** 0.5`. -/
def n_from_sellmeier_backend (lambdaNm : ℝ) (sm : Sellmeier) :
    Except String ℝ :=
  let lamUm := lambdaNm * 1e-3
  let lam2 := lamUm * lamUm
  match sellmeierSum lam2 ((sm.B.zip sm.C).take 3) 1 with
  | .error e => .error e
  | .ok n2 => .ok (Real.sqrt (max n2 1.0))

/-- One material of the backend glass library index (loaded from
`glass_library.json`, a data file external to the traced sources). -/
inductive MaterialEntry where
  | sellm : Sellmeier → MaterialEntry
  | const : Option ℝ → MaterialEntry
  | other : MaterialEntry

/-- glass_materials.py `refractive_index_at_wavelength(lambda_nm,
material_name, refractive_index_fallback)`, parametrized by the loaded
name index (`_build_name_index()`), whose JSON contents are external. -/
def refractive_index_at_wavelength_backend
    (index : String → Option MaterialEntry) (lambdaNm : ℝ)
    (materialName : String) (fallback : PyVal) : Except String PyVal :=
  if pyStrip materialName = "" then .ok fallback
  else if fallback.leR 1.001 then .ok (.fin 1.0)
  else
    match index (pyStrip (pyLower materialName)) with
    | none => .ok fallback
    | some (.sellm sm) =>
        match n_from_sellmeier_backend lambdaNm sm with
        | .error e => .error e
        | .ok n => .ok (.fin n)
    | some (.const n?) => .ok (match n? with | some n => .fin n | none => fallback)
    | some .other => .ok fallback

/-- coating_engine.py `is_hr_coating(coating_name)`: true exactly for the
"HR" entry of the coating table. -/
def is_hr_coating (coatingName : String) : Bool :=
  if pyStrip coatingName = "" then false
  else pyStrip coatingName = "HR"

/-! ## backend trace_service.py: `optical_stack_to_surf_data` and
`run_chromatic_shift` -/

/-- The `n` column of a rayoptics surface datum: `"REFL"` or an index. -/
inductive NVal where
  | refl : NVal
  | idx : PyVal → NVal

/-- One `[curvature, thickness, n, v]` row for rayoptics. -/
structure SurfDatum where
  curvature : ℝ
  thickness : ℝ
  n : NVal
  v : ℝ

/-- One row of `optical_stack_to_surf_data`. -/
def surfDatumOf (index : String → Option MaterialEntry) (wvlNm : ℝ)
    (s : Surface) : Except String SurfDatum :=
  if is_hr_coating s.coating then
    .ok ⟨if s.radius ≠ 0 then 1 / s.radius else 0, s.thickness, .refl, 0⟩
  else
    let nFallback := pyOrDefault s.refractiveIndex 1
    let nRaw : Except String PyVal :=
      match s.sellmeierCoefficients with
      | some sm =>
          match n_from_sellmeier_backend wvlNm sm with
          | .error e => .error e
          | .ok x => .ok (.fin x)
      | none => refractive_index_at_wavelength_backend index wvlNm s.material nFallback
    match nRaw with
    | .error e => .error e
    | .ok n =>
        .ok ⟨if s.radius ≠ 0 then 1 / s.radius else 0, s.thickness, .idx n,
             if s.stype = "Glass" ∧ n.gtR 1.01 then 64.2 else 0⟩

/-- trace_service.py `optical_stack_to_surf_data(surfaces, wvl_nm)`: the
`for s in surfaces` append loop; an exception from a row aborts the rest. -/
def optical_stack_to_surf_data (index : String → Option MaterialEntry)
    (surfaces : List Surface) (wvlNm : ℝ) : Except String (List SurfDatum) :=
  match surfaces with
  | [] => .ok []
  | s :: rest =>
      match surfDatumOf index wvlNm s with
      | .error e => .error e
      | .ok d =>
          match optical_stack_to_surf_data index rest wvlNm with
          | .error e => .error e
          | .ok ds => .ok (d :: ds)

/-- The `while w <= wavelength_max_nm: ...; w += wavelength_step_nm` loop
(with fuel; the sweeps in the code stay far below it). -/
def wvlListAux (mx st : ℝ) : ℕ → ℝ → List ℝ
  | 0, _ => []
  | fuel + 1, w => if w ≤ mx then w :: wvlListAux mx st fuel (w + st) else []

/-- The wavelength list built by `run_chromatic_shift`. -/
def wvlList (mn mx st : ℝ) : List ℝ := wvlListAux mx st 1000 mn

/-- The BFL recorded for one wavelength: `none` (Python `float("nan")`)
when the rayoptics build threw or `fod.bfl` is not finite, otherwise the
finite value. -/
def chromVal (r : Except String PyVal) : Option ℝ :=
  match r with
  | .error _ => none
  | .ok v => if v.isFinite = true then some v.toReal else none

/-- The per-wavelength body of the sweep loop in `run_chromatic_shift`:
`optical_stack_to_surf_data` runs before the `try`, so its exceptions abort
the whole sweep; `bflOf` stands for the external rayoptics body of the
`try` block (`build_singlet_from_surface_data` + `get_focal_length` up to
`fod.bfl`), and an `Except.error` there is the caught exception. -/
def chromLoop (bflOf : List SurfDatum → ℝ → Except String PyVal)
    (index : String → Option MaterialEntry)
    (stackSurfaces : List Surface) : List ℝ → Except String (List (ℝ × Option ℝ))
  | [] => .ok []
  | w :: rest =>
      match optical_stack_to_surf_data index stackSurfaces w with
      | .error e => .error e
      | .ok surfData =>
          match chromLoop bflOf index stackSurfaces rest with
          | .error e => .error e
          | .ok l => .ok ((w, chromVal (bflOf surfData w)) :: l)

/-- trace_service.py `run_chromatic_shift(optical_stack, 400, 1100, 10)`. -/
def run_chromatic_shift
    (bflOf : List SurfDatum → ℝ → Except String PyVal)
    (index : String → Option MaterialEntry)
    (stackSurfaces : List Surface) (mn mx st : ℝ) :
    Except String (List (ℝ × Option ℝ)) :=
  if stackSurfaces = [] then .ok []
  else chromLoop bflOf index stackSurfaces (wvlList mn mx st)

/-! ## backend monte_carlo_service.py `_jitter_surfaces` -/

/-- monte_carlo_service.py `_jitter_surfaces(surfaces, rng,
only_surface_idx)`.  `draws k` models the value returned by the k-th
`rng.uniform(-tol, +tol)` call; a draw is consumed only when the
corresponding tolerance is positive, as in the source. -/
def jitterAux (draws : ℕ → ℝ) (onlyIdx : Option ℕ) :
    ℕ → ℕ → List Surface → List Surface
  | _, _, [] => []
  | i, k, s :: rest =>
      if onlyIdx.isSome ∧ i ≠ onlyIdx.getD 0 then
        s :: jitterAux draws onlyIdx (i + 1) k rest
      else
        let rTol := s.radiusTolerance
        let tTol := s.thicknessTolerance
        if rTol > 0 then
          let s1 := { s with radius := s.radius + draws k }
          if tTol > 0 then
            { s1 with thickness := max 0.01 (s1.thickness + draws (k + 1)) } ::
              jitterAux draws onlyIdx (i + 1) (k + 2) rest
          else s1 :: jitterAux draws onlyIdx (i + 1) (k + 1) rest
        else if tTol > 0 then
          { s with thickness := max 0.01 (s.thickness + draws k) } ::
            jitterAux draws onlyIdx (i + 1) (k + 1) rest
        else s :: jitterAux draws onlyIdx (i + 1) k rest

/-- monte_carlo_service.py `_jitter_surfaces`. -/
def jitter_surfaces (draws : ℕ → ℝ) (surfaces : List Surface)
    (onlyIdx : Option ℕ := none) : List Surface :=
  jitterAux draws onlyIdx 0 0 surfaces

/-! ## Helper lemmas -/

/-- Shifted sum of squares: `Σ (y - c)² = Σ y² - 2c·Σ y + n·c²`. -/
theorem listSumSqShift (ys : List ℝ) (c : ℝ) :
    (ys.map (fun y => (y - c) ^ 2)).sum
      = (ys.map (fun y => y ^ 2)).sum - 2 * c * ys.sum + ys.length * c ^ 2 := by
  induction ys with
  | nil => simp
  | cons a tl ih =>
      simp only [List.map_cons, List.sum_cons, List.length_cons, ih]
      push_cast
      ring

/-- A sum of squares is non-negative. -/
theorem listSumSqNonneg (ys : List ℝ) (c : ℝ) :
    0 ≤ (ys.map (fun y => (y - c) ^ 2)).sum := by
  apply List.sum_nonneg
  intro x hx
  simp only [List.mem_map] at hx
  obtain ⟨y, _, rfl⟩ := hx
  positivity

/-! ## Quadratic-root helper lemmas -/

/-- Factorization of a quadratic through its root formulas. -/
theorem quadFactorization (A B C q : ℝ) (hA : A ≠ 0)
    (hq : q ^ 2 = B ^ 2 - 4 * A * C) (t : ℝ) :
    A * t ^ 2 + B * t + C
      = A * (t - (-B - q) / (2 * A)) * (t - (-B + q) / (2 * A)) := by
  field_simp
  linear_combination A * hq

/-- The roots of the quadratic are exactly the two root formulas. -/
theorem quadRootsIff (A B C q t : ℝ) (hA : A ≠ 0)
    (hq : q ^ 2 = B ^ 2 - 4 * A * C) :
    A * t ^ 2 + B * t + C = 0
      ↔ t = (-B - q) / (2 * A) ∨ t = (-B + q) / (2 * A) := by
  rw [quadFactorization A B C q hA hq t]
  constructor
  · intro h
    rcases mul_eq_zero.mp h with h' | h'
    · rcases mul_eq_zero.mp h' with h'' | h''
      · exact absurd h'' hA
      · exact Or.inl (sub_eq_zero.mp h'')
    · exact Or.inr (sub_eq_zero.mp h')
  · rintro (rfl | rfl) <;> simp [sub_self]

/-- Substituting the parametric ray into the circle equation gives exactly
the quadratic of `trace_ray`. -/
theorem sphereCircleSubst (rayZ rayY rayDz rayDy zVertex radius t : ℝ) :
    (rayZ + t * rayDz - (zVertex + radius)) ^ 2 + (rayY + t * rayDy) ^ 2
        - radius ^ 2
      = sphereA rayDz rayDy * t ^ 2
        + sphereB rayZ rayY rayDz rayDy zVertex radius * t
        + sphereCoefC rayZ rayY zVertex radius := by
  simp only [sphereA, sphereB, sphereCoefC]
  ring

/-! ## C4: aperture invariant of the trace loop -/

/-- Every hit appended by the `trace_ray` loop respects the aperture of
the surface that produced it, and at most one hit is appended per
surface. -/
theorem traceLoop_aperture (surfaces : List Surface) (wvlNm : ℝ)
    (pairs : List (Surface × ℝ)) :
    ∀ (i : ℕ) (rz ry dz dy nB : ℝ) (out : LoopOut),
      traceLoop surfaces wvlNm i pairs rz ry dz dy nB = .ok out →
      out.hits.length ≤ pairs.length ∧
      ∀ pr ∈ out.hits.zip pairs, |pr.1.2| ≤ semiOf pr.2.1 := by
  induction pairs with
  | nil =>
      intro i rz ry dz dy nB out h
      simp only [traceLoop, Except.ok.injEq] at h
      subst h
      exact ⟨by simp, by simp⟩
  | cons p rest ih =>
      obtain ⟨s, zV⟩ := p
      intro i rz ry dz dy nB out h
      simp only [traceLoop] at h
      by_cases hmax : MAX_SURFACES ≤ i
      · simp only [hmax, ite_true, Except.ok.injEq] at h
        subst h
        exact ⟨by simp, by simp⟩
      · simp only [hmax, ite_false] at h
        cases hna : get_n_after surfaces i s wvlNm with
        | error e =>
            simp only [hna] at h
            exact Except.noConfusion h
        | ok nAfter =>
          simp only [hna] at h
          by_cases hdz : |dz| < 1e-12
          · simp only [hdz, ite_true, Except.ok.injEq] at h
            subst h
            exact ⟨by simp, by simp⟩
          · simp only [hdz, ite_false] at h
            cases hsh : surfaceHit s zV rz ry dz dy with
            | none =>
                simp only [hsh, Except.ok.injEq] at h
                subst h
                exact ⟨by simp, by simp⟩
            | some hit =>
              obtain ⟨zS, yS, nx, ny⟩ := hit
              simp only [hsh] at h
              by_cases haper : |yS| > semiOf s
              · simp only [haper, ite_true, Except.ok.injEq] at h
                subst h
                exact ⟨by simp, by simp⟩
              · simp only [haper, ite_false] at h
                cases hau : matchAudit s nAfter with
                | error e =>
                    simp only [hau] at h
                    exact Except.noConfusion h
                | ok u =>
                  simp only [hau] at h
                  by_cases htir : (refract dz dy nx ny nB nAfter).2.2 = true
                  · rw [if_pos htir, Except.ok.injEq] at h
                    subst h
                    refine ⟨by simp, ?_⟩
                    intro pr hpr
                    simp only [List.zip_cons_cons, List.zip_nil_left,
                      List.mem_singleton] at hpr
                    subst hpr
                    exact not_lt.mp haper
                  · rw [if_neg htir] at h
                    by_cases hsm : |(refract dz dy nx ny nB nAfter).1| < 1e-12 ∧
                        |(refract dz dy nx ny nB nAfter).2.1| < 1e-12
                    · rw [if_pos hsm, Except.ok.injEq] at h
                      subst h
                      refine ⟨by simp, ?_⟩
                      intro pr hpr
                      simp only [List.zip_cons_cons, List.zip_nil_left,
                        List.mem_singleton] at hpr
                      subst hpr
                      exact not_lt.mp haper
                    · rw [if_neg hsm] at h
                      cases hrec : traceLoop surfaces wvlNm (i + 1) rest
                          (zS + (refract dz dy nx ny nB nAfter).1 * NUDGE_EPS)
                          (yS + (refract dz dy nx ny nB nAfter).2.1 * NUDGE_EPS)
                          (refract dz dy nx ny nB nAfter).1
                          (refract dz dy nx ny nB nAfter).2.1 nAfter with
                      | error e =>
                          simp only [hrec] at h
                          exact Except.noConfusion h
                      | ok out' =>
                        simp only [hrec, Except.ok.injEq] at h
                        subst h
                        obtain ⟨ihlen, ihmem⟩ := ih (i + 1) _ _ _ _ _ out' hrec
                        refine ⟨?_, ?_⟩
                        · simpa using Nat.succ_le_succ ihlen
                        · intro pr hpr
                          rw [List.zip_cons_cons] at hpr
                          rcases List.mem_cons.mp hpr with rfl | hmem
                          · exact not_lt.mp haper
                          · exact ihmem pr hmem

/-- C4: every hit point recorded by `trace_ray` satisfies
`|y| ≤ semi-diameter` of the surface that produced it (point `j` of the
polyline after the origin comes from surface `j`), and a ray whose loop
terminated early (`completed_all = false`) is returned unextended: its
polyline is exactly the origin followed by the recorded hits, with no
point at the target z. -/
theorem trace_ray_aperture (rayZ rayY rayDz rayDy : ℝ)
    (surfaces : List Surface) (wvlNm : ℝ) (cumulativeZ : List ℝ)
    (zTarget : ℝ) (out : LoopOut)
    (h : traceLoop surfaces wvlNm 0 (surfaces.zip cumulativeZ)
        rayZ rayY rayDz rayDy 1.0 = .ok out) :
    (∀ pr ∈ out.hits.zip (surfaces.zip cumulativeZ),
        |pr.1.2| ≤ semiOf pr.2.1) ∧
    (out.completedAll = false →
      trace_ray rayZ rayY rayDz rayDy surfaces wvlNm cumulativeZ zTarget
        = .ok ((rayZ, rayY) :: out.hits)) := by
  refine ⟨(traceLoop_aperture surfaces wvlNm _ 0 _ _ _ _ _ out h).2, ?_⟩
  intro hcomp
  have hcond : ¬ (out.completedAll = true ∧ |out.rayDz| > 1e-12 ∧
      out.rayZ < zTarget) := by
    rintro ⟨h1, -⟩
    rw [hcomp] at h1
    exact Bool.noConfusion h1
  simp only [trace_ray, h]
  rw [if_neg hcond]

/-- C4 witness: a ray at height 2 clipped by a flat surface of
semi-diameter 0.5 records no hit and is not extended to the target z. -/
theorem trace_ray_aperture_witness :
    (∀ pr ∈ ([] : List (ℝ × ℝ)).zip
        (([{ diameter := 1, material := "Air" }] : List Surface).zip [(0 : ℝ)]),
        |pr.1.2| ≤ semiOf pr.2.1) ∧
    (false = false →
      trace_ray (-10) 2 1 0 [{ diameter := 1, material := "Air" }] 587.6 [0] 150
        = .ok [(-10, 2)]) := by
  have h : traceLoop [{ diameter := 1, material := "Air" }] 587.6 0
      (([{ diameter := 1, material := "Air" }] : List Surface).zip [(0 : ℝ)])
      (-10) 2 1 0 1.0 = .ok ⟨[], false, -10, 2, 1, 0⟩ := by
    norm_num [traceLoop, MAX_SURFACES, get_n_after, surfaceHit, semiOf]
  exact trace_ray_aperture (-10) 2 1 0 [{ diameter := 1, material := "Air" }]
    587.6 [0] 150 ⟨[], false, -10, 2, 1, 0⟩ h

/-! ## C5: "air"-tagged surfaces resolve to exactly 1.0, with a loud audit -/

/-- C5: a surface whose material or type is tagged "air" (case- and
whitespace-insensitively) resolves through `get_n_after` strictly to 1.0
regardless of any stored refractiveIndex; the trace-loop MATCH AUDIT
raises a `ValueError` whenever the audited material name is "air" but
`n_after` differs from 1.0 by more than 1e-6; and for any surface whose
audited name is "air", `get_n_after` in fact returns exactly 1.0 (so the
audit can never fire on `get_n_after`'s own output). -/
theorem air_index_strict :
    (∀ (surfaces : List Surface) (i : ℕ) (s : Surface) (wvlNm : ℝ),
      pyLower (pyStrip s.material) = "air" ∨ pyLower (pyStrip s.stype) = "air" →
      get_n_after surfaces i s wvlNm = .ok 1.0) ∧
    (∀ (s : Surface) (nAfter : ℝ),
      pyLower (auditMatName s) = "air" → |nAfter - 1.0| > 1e-6 →
      matchAudit s nAfter = .error "MATCH AUDIT FAIL") ∧
    (∀ (surfaces : List Surface) (i : ℕ) (s : Surface) (wvlNm : ℝ),
      pyLower (auditMatName s) = "air" →
      get_n_after surfaces i s wvlNm = .ok 1.0) := by
  have hfirst : ∀ (surfaces : List Surface) (i : ℕ) (s : Surface) (wvlNm : ℝ),
      pyLower (pyStrip s.material) = "air" ∨ pyLower (pyStrip s.stype) = "air" →
      get_n_after surfaces i s wvlNm = .ok 1.0 := by
    intro surfaces i s wvlNm htag
    rw [get_n_after]
    by_cases hlast : i = surfaces.length - 1
    · rw [if_pos hlast]
    · rw [if_neg hlast, if_pos htag]
  have key : ∀ s : Surface, pyLower (auditMatName s) = "air" →
      pyLower (pyStrip s.material) = "air" ∨ pyLower (pyStrip s.stype) = "air" := by
    intro s h
    rw [auditMatName] at h
    by_cases hm : s.material = ""
    · rw [pyOrS, if_pos hm] at h
      by_cases ht : s.stype = ""
      · rw [pyOrS, if_pos ht] at h
        exact absurd h (by decide)
      · rw [pyOrS, if_neg ht] at h
        exact Or.inr h
    · rw [pyOrS, if_neg hm] at h
      exact Or.inl h
  refine ⟨hfirst, ?_, ?_⟩
  · intro s nAfter h1 h2
    rw [matchAudit, if_pos ⟨h1, h2⟩]
  · intro surfaces i s wvlNm h
    exact hfirst surfaces i s wvlNm (key s h)

/-- C5 witness: a surface with material `" AIR "` and a stored index of
1.6 still resolves to exactly 1.0; the audit fires on `n_after = 2`. -/
theorem air_index_strict_witness :
    (pyLower (pyStrip (" AIR " : String)) = "air" ∨
      pyLower (pyStrip ("" : String)) = "air") ∧
    get_n_after [{ material := " AIR ", refractiveIndex := some (.fin 1.6) }, {}] 0
      { material := " AIR ", refractiveIndex := some (.fin 1.6) } 587.6 = .ok 1.0 ∧
    pyLower (auditMatName { material := " AIR " }) = "air" ∧
    |(2 : ℝ) - 1.0| > 1e-6 ∧
    matchAudit { material := " AIR " } 2 = .error "MATCH AUDIT FAIL" := by
  refine ⟨Or.inl (by decide), ?_, ?_, by norm_num, ?_⟩
  · exact air_index_strict.1 _ 0 _ 587.6 (Or.inl (by decide))
  · rw [auditMatName]; decide
  · exact air_index_strict.2.1 _ 2 (by rw [auditMatName]; decide) (by norm_num)

/-! ## C10: index resolution is clamped (amended: when it returns) -/

/-- The final `max(0.1, min(10.0, n))` clamp of `get_n` lands in
`[0.1, 10]` for every Python float, NaN and ±inf included. -/
theorem pyClampRange (n : PyVal) :
    0.1 ≤ (pyMaxRV 0.1 (pyMinRV 10.0 n)).toReal ∧
    (pyMaxRV 0.1 (pyMinRV 10.0 n)).toReal ≤ 10 := by
  rw [pyMinRV]
  by_cases h : n.ltR 10.0
  · rw [if_pos h]
    cases n with
    | nan => simp [PyVal.ltR] at h
    | inf => simp [PyVal.ltR] at h
    | ninf =>
        rw [pyMaxRV, if_neg (by simp [PyVal.gtR])]
        constructor <;> norm_num [PyVal.toReal]
    | fin x =>
        simp only [PyVal.ltR] at h
        rw [pyMaxRV]
        by_cases hg : (PyVal.fin x).gtR 0.1
        · simp only [PyVal.gtR] at hg
          rw [if_pos (by simpa [PyVal.gtR] using hg)]
          constructor <;> simp [PyVal.toReal] <;> linarith
        · rw [if_neg hg]
          constructor <;> norm_num [PyVal.toReal]
  · rw [if_neg h, pyMaxRV, if_pos (by norm_num [PyVal.gtR])]
    constructor <;> norm_num [PyVal.toReal]

/-- C10 (amended): whenever `get_n` returns (it can raise a
`ZeroDivisionError` on an exactly-zero Sellmeier denominator), the result
is a real clamped to `[0.1, 10.0]`; whenever `n_from_sellmeier` returns,
its value is at least 1 (radicand clamped by `max(1.0, n2)`); and any
index returned by `get_n_after` is strictly positive, so the ratio
`eta = n_before / n_after` in `trace_ray` divides by a nonzero number. -/
theorem get_n_clamped :
    (∀ (s : Surface) (wvlNm x : ℝ), get_n s wvlNm = .ok x →
      0.1 ≤ x ∧ x ≤ 10) ∧
    (∀ (wvlNm : ℝ) (sm : Sellmeier) (x : ℝ),
      n_from_sellmeier wvlNm sm = .ok x → 1 ≤ x) ∧
    (∀ (surfaces : List Surface) (i : ℕ) (s : Surface) (wvlNm x : ℝ),
      get_n_after surfaces i s wvlNm = .ok x → 0 < x) := by
  have hget : ∀ (s : Surface) (wvlNm x : ℝ), get_n s wvlNm = .ok x →
      0.1 ≤ x ∧ x ≤ 10 := by
    intro s wvlNm x h
    rw [get_n] at h
    cases hnr : getNRaw s wvlNm with
    | error e =>
        rw [hnr] at h
        exact Except.noConfusion h
    | ok n =>
        rw [hnr] at h
        simp only [Except.ok.injEq] at h
        subst h
        exact pyClampRange _
  refine ⟨hget, ?_, ?_⟩
  · intro wvlNm sm x h
    rw [n_from_sellmeier] at h
    by_cases hlen : sm.B.length < 3 ∨ sm.C.length < 3
    · rw [if_pos hlen, Except.ok.injEq] at h
      subst h
      norm_num
    · rw [if_neg hlen] at h
      cases hs : sellmeierSum (wvlNm / 1000 * (wvlNm / 1000))
          ((sm.B.zip sm.C).take 3) 1 with
      | error e =>
          rw [hs] at h
          exact Except.noConfusion h
      | ok n2 =>
          rw [hs, Except.ok.injEq] at h
          subst h
          calc (1 : ℝ) = Real.sqrt 1 := by rw [Real.sqrt_one]
            _ ≤ Real.sqrt (max 1 n2) := Real.sqrt_le_sqrt (le_max_left 1 n2)
  · intro surfaces i s wvlNm x h
    rw [get_n_after] at h
    by_cases hlast : i = surfaces.length - 1
    · rw [if_pos hlast, Except.ok.injEq] at h
      subst h
      norm_num
    · rw [if_neg hlast] at h
      by_cases hair : pyLower (pyStrip s.material) = "air" ∨
          pyLower (pyStrip s.stype) = "air"
      · rw [if_pos hair, Except.ok.injEq] at h
        subst h
        norm_num
      · rw [if_neg hair] at h
        have := (hget s wvlNm x h).1
        linarith

/-- C10 counterexample to the claim as stated: a surface whose Sellmeier
coefficients make a denominator `λ_um² - Cᵢ` exactly zero (`C = 0.25` at
`λ = 500 nm`, all values float-exact) makes `get_n` raise
`ZeroDivisionError` instead of returning a clamped index. -/
theorem get_n_zero_division_counterexample :
    get_n { sellmeierCoefficients := some ⟨[1, 1, 1], [0.25, 0.25, 0.25]⟩ } 500
      = .error "ZeroDivisionError" := by
  have hsum : sellmeierSum (500 / 1000 * (500 / 1000))
      ((([1, 1, 1] : List ℝ).zip ([0.25, 0.25, 0.25] : List ℝ)).take 3) 1
      = .error "ZeroDivisionError" := by
    norm_num [sellmeierSum]
  have h : n_from_sellmeier 500 ⟨[1, 1, 1], [0.25, 0.25, 0.25]⟩
      = .error "ZeroDivisionError" := by
    rw [n_from_sellmeier, if_neg (by norm_num)]
    rw [hsum]
  simp only [get_n, getNRaw, h]

/-- C10 witness: the amended theorem applied at concrete inputs. -/
theorem get_n_clamped_witness :
    get_n {} 587.6 = .ok 1.52 ∧ ((0.1 : ℝ) ≤ 1.52 ∧ (1.52 : ℝ) ≤ 10) ∧
    n_from_sellmeier 587.6 ⟨[], []⟩ = .ok 1.52 ∧ (1 : ℝ) ≤ 1.52 ∧
    get_n_after [] 0 {} 587.6 = .ok 1.0 ∧ (0 : ℝ) < 1.0 := by
  have hstrip : pyStrip "" = "" := by decide
  have h1 : get_n {} 587.6 = .ok 1.52 := by
    have hraw : getNRaw {} 587.6 = .ok (.fin 1.52) := by
      rw [getNRaw]
      show refractiveIndexAtWavelength 587.6 "" (pyOrDefault none 1.52) = _
      rw [refractiveIndexAtWavelength, if_pos hstrip]
      rfl
    rw [get_n, hraw]
    norm_num [PyVal.isNan, PyVal.leR, PyVal.isFinite, pyMinRV, pyMaxRV,
      PyVal.ltR, PyVal.gtR, PyVal.toReal]
  have h2 : n_from_sellmeier 587.6 ⟨[], []⟩ = .ok 1.52 := by
    rw [n_from_sellmeier, if_pos (by norm_num)]
  have h3 : get_n_after [] 0 {} 587.6 = .ok 1.0 := by
    rw [get_n_after, if_pos (by simp)]
  exact ⟨h1, get_n_clamped.1 _ 587.6 _ h1, h2, (get_n_clamped.2.1 587.6 _ _ h2),
    h3, get_n_clamped.2.2 [] 0 _ 587.6 _ h3⟩

/-! ## C8: metrics at z (amended: extrapolation, not skipping) -/

/-- C8 (amended): `_interpolate_ray_at_z` yields `None` exactly for rays
with fewer than 2 recorded points; for `z` at or beyond a ray's recorded
z-range (and above its minimum) it returns the last-segment extrapolation
— so an early-terminated ray still contributes to metrics beyond its last
recorded point; and `get_metrics_at_z` counts exactly the rays whose
interpolation succeeded, returning the all-null "no data" result iff no
ray yields a value. -/
theorem metrics_at_z_spec :
    (∀ (ray : List (ℝ × ℝ)) (zPos : ℝ), ray.length < 2 →
      interpolate_ray_at_z ray zPos = none) ∧
    (∀ (p0 p1 : ℝ × ℝ) (rest : List (ℝ × ℝ)) (zPos : ℝ),
      ¬ zPos ≤ ((p0 :: p1 :: rest).map Prod.fst).foldl min p0.1 →
      zPos ≥ ((p0 :: p1 :: rest).map Prod.fst).foldl max p0.1 →
      interpolate_ray_at_z (p0 :: p1 :: rest) zPos
        = some ((lastTwo p0 p1 rest).2.2 +
            segmentSlope (lastTwo p0 p1 rest).1 (lastTwo p0 p1 rest).2 *
              (zPos - (lastTwo p0 p1 rest).2.1),
            segmentSlope (lastTwo p0 p1 rest).1 (lastTwo p0 p1 rest).2)) ∧
    (∀ (zPos : ℝ) (rayData : List (List (ℝ × ℝ))),
      (get_metrics_at_z zPos rayData).numRays
        = (rayData.filterMap (fun r => interpolate_ray_at_z r zPos)).length ∧
      ((rayData.filterMap (fun r => interpolate_ray_at_z r zPos)) = [] ↔
        get_metrics_at_z zPos rayData = noDataMetrics)) := by
  refine ⟨?_, ?_, ?_⟩
  · intro ray zPos hlen
    match ray with
    | [] => rfl
    | [p] => rfl
    | p0 :: p1 :: rest => exact absurd hlen (by simp)
  · intro p0 p1 rest zPos hmin hmax
    rw [interpolate_ray_at_z, if_neg hmin, if_pos hmax]
  · intro zPos rayData
    rw [get_metrics_at_z]
    by_cases hemp : rayData.filterMap (fun r => interpolate_ray_at_z r zPos) = []
    · rw [if_pos hemp, hemp]
      exact ⟨rfl, by simp⟩
    · rw [if_neg hemp]
      refine ⟨by simp, ?_⟩
      constructor
      · intro h
        exact absurd h hemp
      · intro h
        have hn := congrArg Metrics.numRays h
        simp only [noDataMetrics] at hn
        simp only [List.length_map] at hn
        exact List.length_eq_zero.mp hn

/-- C8 counterexample to the claim as stated: a ray recorded only on
`z ∈ [0, 1]` still contributes an (extrapolated) value to the metrics at
`z = 2`, where no recorded sample spans `z`; the claim would require the
"no data" result with `numRays = 0`. -/
theorem metrics_extrapolation_counterexample :
    interpolate_ray_at_z [((0 : ℝ), (0 : ℝ)), (1, 1)] 2 = some (2, 1) ∧
    (get_metrics_at_z 2 [[((0 : ℝ), (0 : ℝ)), (1, 1)]]).numRays = 1 ∧
    get_metrics_at_z 2 [[((0 : ℝ), (0 : ℝ)), (1, 1)]] ≠ noDataMetrics := by
  have hint : interpolate_ray_at_z [((0 : ℝ), (0 : ℝ)), (1, 1)] 2 = some (2, 1) := by
    rw [interpolate_ray_at_z]
    rw [if_neg (by norm_num), if_pos (by norm_num)]
    norm_num [lastTwo, segmentSlope]
  have hcount : (get_metrics_at_z 2 [[((0 : ℝ), (0 : ℝ)), (1, 1)]]).numRays = 1 := by
    have := (metrics_at_z_spec.2.2 2 [[((0 : ℝ), (0 : ℝ)), (1, 1)]]).1
    rw [this]
    simp only [List.filterMap_cons, List.filterMap_nil, hint]
    rfl
  refine ⟨hint, hcount, ?_⟩
  intro hcon
  rw [hcon] at hcount
  exact absurd hcount (by norm_num [noDataMetrics])

/-- C8 witness: part one at a one-point ray, part two at the concrete
two-point ray, part three at `z = 5` with no rays. -/
theorem metrics_at_z_spec_witness :
    (([((3 : ℝ), (4 : ℝ))] : List (ℝ × ℝ)).length < 2 ∧
      interpolate_ray_at_z [((3 : ℝ), (4 : ℝ))] 5 = none) ∧
    (interpolate_ray_at_z [((0 : ℝ), (0 : ℝ)), (1, 1)] 3
        = some ((lastTwo ((0 : ℝ), (0 : ℝ)) (1, 1) []).2.2 +
            segmentSlope (lastTwo ((0 : ℝ), (0 : ℝ)) (1, 1) []).1
                (lastTwo ((0 : ℝ), (0 : ℝ)) (1, 1) []).2 *
              (3 - (lastTwo ((0 : ℝ), (0 : ℝ)) (1, 1) []).2.1),
            segmentSlope (lastTwo ((0 : ℝ), (0 : ℝ)) (1, 1) []).1
              (lastTwo ((0 : ℝ), (0 : ℝ)) (1, 1) []).2)) ∧
    ((get_metrics_at_z 5 ([] : List (List (ℝ × ℝ)))).numRays
        = (([] : List (List (ℝ × ℝ))).filterMap
            (fun r => interpolate_ray_at_z r 5)).length) :=
  ⟨⟨by norm_num, metrics_at_z_spec.1 [((3 : ℝ), (4 : ℝ))] 5 (by norm_num)⟩,
   metrics_at_z_spec.2.1 ((0 : ℝ), (0 : ℝ)) (1, 1) [] 3 (by norm_num) (by norm_num),
   (metrics_at_z_spec.2.2 5 []).1⟩

/-! ## C3: focus search (amended: zero-total objective degenerates) -/

/-- With every present RMS below the 1e10 cutoff and non-negative weights,
the code's filtered sum equals the spec's dropped-weight sum. -/
theorem weightedSumEq : ∀ (rms : List (Option ℝ)) (weights : List ℝ),
    (∀ r ∈ rms, ∀ x : ℝ, r = some x → x < 1e10) →
    (∀ w ∈ weights, 0 ≤ w) →
    ((rms.zip weights).map fun p =>
        match p.1 with
        | some r => if r < 1e10 ∧ p.2 > 0 then p.2 * r ^ 2 else 0
        | none => 0).sum
      = ((rms.zip weights).map fun p =>
        match p.1 with
        | some r => p.2 * r ^ 2
        | none => 0).sum := by
  intro rms
  induction rms with
  | nil => intro weights _ _; simp
  | cons r rest ih =>
      intro weights hlt hw
      cases weights with
      | nil => simp
      | cons w ws =>
          simp only [List.zip_cons_cons, List.map_cons, List.sum_cons]
          have htail := ih ws (fun r' hr' => hlt r' (List.mem_cons_of_mem _ hr'))
            (fun w' hw' => hw w' (List.mem_cons_of_mem _ hw'))
          rw [htail]
          congr 1
          cases r with
          | none => rfl
          | some x =>
              have hx : x < 1e10 := hlt (some x) (List.mem_cons_self _ _) x rfl
              have hw0 : 0 ≤ w := hw w (List.mem_cons_self _ _)
              show (if x < 1e10 ∧ w > 0 then w * x ^ 2 else 0) = w * x ^ 2
              by_cases hwp : w > 0
              · rw [if_pos ⟨hx, hwp⟩]
              · rw [if_neg (fun hc => hwp hc.2)]
                have : w = 0 := le_antisymm (not_lt.mp hwp) hw0
                rw [this]
                ring

/-- The golden-section loop keeps a nested bracket and shrinks it by a
factor `1/phi` per iteration until the tolerance stops it. -/
theorem goldenSectionLoop_bracket (objective : ℝ → Option ℝ) :
    ∀ (fuel : ℕ) (tol za zb : ℝ), 0 ≤ tol → za ≤ zb →
      za ≤ (goldenSectionLoop objective fuel tol za zb).1 ∧
      (goldenSectionLoop objective fuel tol za zb).1
        ≤ (goldenSectionLoop objective fuel tol za zb).2 ∧
      (goldenSectionLoop objective fuel tol za zb).2 ≤ zb ∧
      (goldenSectionLoop objective fuel tol za zb).2
          - (goldenSectionLoop objective fuel tol za zb).1
        ≤ max tol ((zb - za) * (2 / (1 + Real.sqrt 5)) ^ fuel) := by
  intro fuel
  induction fuel with
  | zero =>
      intro tol za zb htol hab
      simp only [goldenSectionLoop]
      refine ⟨le_refl _, hab, le_refl _, ?_⟩
      rw [pow_zero, mul_one]
      exact le_max_right _ _
  | succ n ih =>
      intro tol za zb htol hab
      have hs5 : 1 < Real.sqrt 5 := by
        nlinarith [Real.sq_sqrt (show (0 : ℝ) ≤ 5 by norm_num), Real.sqrt_nonneg 5]
      have hphi : (1 : ℝ) ≤ (1 + Real.sqrt 5) / 2 := by linarith
      have h15 : (0 : ℝ) < 1 + Real.sqrt 5 := by linarith
      simp only [goldenSectionLoop]
      by_cases hstop : zb - za ≤ tol
      · simp only [if_pos hstop]
        exact ⟨le_refl _, hab, le_refl _, le_trans hstop (le_max_left _ _)⟩
      · simp only [if_neg hstop]
        have hwpos : 0 < zb - za := lt_of_le_of_lt htol (not_le.mp hstop)
        have hdivnn : 0 ≤ (zb - za) / ((1 + Real.sqrt 5) / 2) :=
          div_nonneg hwpos.le (by linarith)
        have hdivle : (zb - za) / ((1 + Real.sqrt 5) / 2) ≤ zb - za :=
          div_le_self hwpos.le hphi
        by_cases hobj : optLtInf
            (objective (zb - (zb - za) / ((1 + Real.sqrt 5) / 2)))
            (objective (za + (zb - za) / ((1 + Real.sqrt 5) / 2)))
        · simp only [if_pos hobj]
          have hzd : za ≤ za + (zb - za) / ((1 + Real.sqrt 5) / 2) :=
            le_add_of_nonneg_right hdivnn
          obtain ⟨ha, hab', hb, hw⟩ := ih tol za
            (za + (zb - za) / ((1 + Real.sqrt 5) / 2)) htol hzd
          have hshrink : (za + (zb - za) / ((1 + Real.sqrt 5) / 2) - za) *
              (2 / (1 + Real.sqrt 5)) ^ n
              = (zb - za) * (2 / (1 + Real.sqrt 5)) ^ (n + 1) := by
            rw [pow_succ]
            field_simp
            ring
          refine ⟨ha, hab', le_trans hb (by linarith), le_trans hw ?_⟩
          rw [hshrink]
        · simp only [if_neg hobj]
          have hzc : zb - (zb - za) / ((1 + Real.sqrt 5) / 2) ≤ zb := by linarith
          have hzc' : za ≤ zb - (zb - za) / ((1 + Real.sqrt 5) / 2) := by linarith
          obtain ⟨ha, hab', hb, hw⟩ := ih tol
            (zb - (zb - za) / ((1 + Real.sqrt 5) / 2)) zb htol hzc
          have hwidth : (zb - (zb - (zb - za) / ((1 + Real.sqrt 5) / 2))) *
              (2 / (1 + Real.sqrt 5)) ^ n
              = (zb - za) * (2 / (1 + Real.sqrt 5)) ^ (n + 1) := by
            rw [pow_succ]
            field_simp
            ring
          refine ⟨le_trans hzc' ha, hab', hb, le_trans hw ?_⟩
          rw [hwidth]

/-- C3 (amended): the focus-search weights are `[1, 0, ...]` in On-Axis
mode and `[1/n, ..., 1/n]` in Balanced mode; whenever the weighted sum of
the valid-field RMS squares is positive (and every present RMS is below
the 1e10 cutoff, weights non-negative), `_global_weighted_rms` equals the
spec objective `sqrt(Σ wᵢ·RMSᵢ²)` with no-ray fields dropped (when the sum
is zero it returns infinity instead — see the counterexample); and the
golden-section search with tolerance 1e-6 capped at 80 iterations returns
the midpoint of a nested bracket inside `[z_lo, z_hi]` whose final width
is at most `max(1e-6, (z_hi - z_lo)·(1/phi)^80)`. -/
theorem focus_search_spec :
    (∀ n : ℕ, focusWeights "On-Axis" (n + 1) = 1.0 :: List.replicate n 0.0) ∧
    (∀ n : ℕ, 1 ≤ n →
      focusWeights "Balanced" n = List.replicate n ((1 : ℝ) / (n : ℝ))) ∧
    (∀ (rms : List (Option ℝ)) (weights : List ℝ),
      (∀ r ∈ rms, ∀ x : ℝ, r = some x → x < 1e10) →
      (∀ w ∈ weights, 0 ≤ w) →
      0 < ((rms.zip weights).map fun p =>
          match p.1 with
          | some r => p.2 * r ^ 2
          | none => 0).sum →
      global_weighted_rms rms weights = some (specGlobalRms rms weights)) ∧
    (∀ (raysByField : List (List (List (ℝ × ℝ)))) (zLo zHi : ℝ) (mode : String),
      zLo ≤ zHi →
      ∀ za zb, goldenSectionLoop
          (fun z => global_weighted_rms (rms_per_field_at_z raysByField z)
            (focusWeights mode raysByField.length)) 80 1e-6 zLo zHi = (za, zb) →
        (best_focus_golden_section raysByField zLo zHi mode).1 = (za + zb) / 2 ∧
        zLo ≤ za ∧ za ≤ zb ∧ zb ≤ zHi ∧
        zb - za ≤ max 1e-6 ((zHi - zLo) * (2 / (1 + Real.sqrt 5)) ^ 80)) := by
  refine ⟨?_, ?_, ?_, ?_⟩
  · intro n
    rw [focusWeights, if_pos rfl, if_pos (Nat.succ_ne_zero n)]
    simp
  · intro n hn
    rw [focusWeights, if_neg (by decide)]
    rw [Nat.max_eq_right hn]
    norm_num
  · intro rms weights hlt hw hpos
    have hsum := weightedSumEq rms weights hlt hw
    rw [global_weighted_rms, specGlobalRms]
    rw [hsum, if_pos hpos]
  · intro raysByField zLo zHi mode hle za zb heq
    obtain ⟨ha, hab, hb, hwidth⟩ := goldenSectionLoop_bracket
      (fun z => global_weighted_rms (rms_per_field_at_z raysByField z)
        (focusWeights mode raysByField.length)) 80 1e-6 zLo zHi (by norm_num) hle
    rw [heq] at ha hab hb hwidth
    exact ⟨by rw [best_focus_golden_section, heq], ha, hab, hb, hwidth⟩

/-- C3 counterexample to the claim as stated: at a z where the single
(On-Axis) field has RMS exactly 0 — a perfect focus — the implemented
objective returns infinity (`None` here models Python `float("inf")`),
not the spec formula's `sqrt(1·0²) = 0`, because `_global_weighted_rms`
returns `inf` whenever its accumulated total is not positive. -/
theorem global_weighted_rms_zero_counterexample :
    global_weighted_rms [some 0] [1] = none ∧
    specGlobalRms [some 0] [1] = 0 ∧
    global_weighted_rms [some 0] [1] ≠ some (specGlobalRms [some 0] [1]) := by
  have h1 : global_weighted_rms [some (0 : ℝ)] [(1 : ℝ)] = none := by
    rw [global_weighted_rms]
    norm_num
  have h2 : specGlobalRms [some (0 : ℝ)] [(1 : ℝ)] = 0 := by
    rw [specGlobalRms]
    norm_num [Real.sqrt_zero]
  exact ⟨h1, h2, by rw [h1]; simp⟩

/-- C3 witness: the weights at one and two fields, the objective equality
at a field with RMS 1 and weight 1, and the bracket facts on `[0, 1]`. -/
theorem focus_search_spec_witness :
    focusWeights "On-Axis" 1 = [(1.0 : ℝ)] ∧
    ((1 : ℕ) ≤ 2 ∧ focusWeights "Balanced" 2 = List.replicate 2 ((1 : ℝ) / 2)) ∧
    global_weighted_rms [some 1] [1] = some (specGlobalRms [some 1] [1]) ∧
    ((0 : ℝ) ≤ 1 ∧
      ∀ za zb, goldenSectionLoop
          (fun z => global_weighted_rms (rms_per_field_at_z [] z)
            (focusWeights "On-Axis" ([] : List (List (List (ℝ × ℝ)))).length))
          80 1e-6 0 1 = (za, zb) →
        (best_focus_golden_section [] 0 1 "On-Axis").1 = (za + zb) / 2 ∧
        (0 : ℝ) ≤ za ∧ za ≤ zb ∧ zb ≤ 1 ∧
        zb - za ≤ max 1e-6 (((1 : ℝ) - 0) * (2 / (1 + Real.sqrt 5)) ^ 80)) := by
  refine ⟨?_, ⟨by norm_num, ?_⟩, ?_, by norm_num, ?_⟩
  · simpa using focus_search_spec.1 0
  · have h := focus_search_spec.2.1 2 (by norm_num)
    simpa using h
  · refine focus_search_spec.2.2.1 [some 1] [1] ?_ ?_ ?_
    · intro r hr x hx
      simp only [List.mem_singleton] at hr
      subst hr
      simp only [Option.some.injEq] at hx
      subst hx
      norm_num
    · intro w hw
      simp only [List.mem_singleton] at hw
      subst hw
      norm_num
    · norm_num
  · intro za zb heq
    exact focus_search_spec.2.2.2 [] 0 1 "On-Axis" (by norm_num) za zb heq

/-! ## C9: RMS population formula equals the centered formula -/

/-- C9: for every non-empty y-list, `_rms_radius` (which computes
`sqrt(max(0, mean(y²) - mean(y)²))`) equals the centered reference
formula `sqrt(mean((y - ȳ)²))`. -/
theorem rms_radius_eq_centered (ys : List ℝ) (h : ys ≠ []) :
    rms_radius ys
      = some (Real.sqrt
          ((ys.map (fun y => (y - ys.sum / (ys.length : ℝ)) ^ 2)).sum
            / (ys.length : ℝ))) := by
  have hn : (0 : ℝ) < (ys.length : ℝ) := by
    exact_mod_cast List.length_pos.mpr h
  have hne : (ys.length : ℝ) ≠ 0 := ne_of_gt hn
  have hshift := listSumSqShift ys (ys.sum / (ys.length : ℝ))
  have hmean : (ys.map (fun y => y ^ 2)).sum / (ys.length : ℝ)
        - (ys.sum / (ys.length : ℝ)) ^ 2
      = (ys.map (fun y => (y - ys.sum / (ys.length : ℝ)) ^ 2)).sum
        / (ys.length : ℝ) := by
    rw [hshift]
    field_simp
    ring
  have hnonneg : 0 ≤ (ys.map (fun y => y ^ 2)).sum / (ys.length : ℝ)
      - (ys.sum / (ys.length : ℝ)) ^ 2 := by
    rw [hmean]
    exact div_nonneg (listSumSqNonneg ys _) hn.le
  rw [rms_radius, if_neg h]
  show some (Real.sqrt (max 0 ((ys.map (fun y => y ^ 2)).sum / (ys.length : ℝ)
      - (ys.sum / (ys.length : ℝ)) ^ 2))) = _
  rw [max_eq_right hnonneg, hmean]

/-- C9 witness: the equivalence at the concrete input `[1, 3]`. -/
theorem rms_radius_eq_centered_witness :
    ([1, 3] : List ℝ) ≠ [] ∧
    rms_radius [1, 3]
      = some (Real.sqrt
          ((([1, 3] : List ℝ).map
              (fun y => (y - ([1, 3] : List ℝ).sum / (([1, 3] : List ℝ).length : ℝ)) ^ 2)).sum
            / (([1, 3] : List ℝ).length : ℝ))) :=
  ⟨by simp, rms_radius_eq_centered [1, 3] (by simp)⟩

/-! ## C1: `refract` satisfies Snell's law (amended: `n2 ≥ 1e-9`) -/

/-- C1 (amended): for a unit incident direction, a unit normal opposing it,
`n1 > 0` and `n2 ≥ 1e-9` (the guard under which `refract` refracts at
all): the radicand is the claimed `1 - (n1/n2)²(1 - (N·d)²)`; whenever it
is non-negative the returned direction satisfies Snell's law
`n1·sin θ₁ = n2·sin θ₂` exactly (sines as cross products with the
normal); at normal incidence the incident direction is returned; `n1 = n2`
returns the incident direction; and a negative radicand reports TIR. -/
theorem refract_snell_amended (vz vy nx ny n1 n2 : ℝ)
    (hv : vz ^ 2 + vy ^ 2 = 1) (hn : nx ^ 2 + ny ^ 2 = 1)
    (hop : nx * vz + ny * vy < 0) (hn1 : 0 < n1) (hn2 : (1e-9 : ℝ) ≤ n2) :
    (refractSin2T vz vy nx ny n1 n2
        = 1 - (n1 / n2) ^ 2 * (1 - (nx * vz + ny * vy) ^ 2)) ∧
    (0 ≤ refractSin2T vz vy nx ny n1 n2 →
        (refract vz vy nx ny n1 n2).2.2 = false ∧
        n1 * |vz * ny - vy * nx| =
          n2 * |(refract vz vy nx ny n1 n2).1 * ny -
                (refract vz vy nx ny n1 n2).2.1 * nx|) ∧
    (nx * vz + ny * vy = -1 → refract vz vy nx ny n1 n2 = (vz, vy, false)) ∧
    (n1 = n2 → refract vz vy nx ny n1 n2 = (vz, vy, false)) ∧
    (refractSin2T vz vy nx ny n1 n2 < 0 →
        (refract vz vy nx ny n1 n2).2.2 = true) := by
  have hn2pos : 0 < n2 := lt_of_lt_of_le (by norm_num) hn2
  have hδ : ¬ n2 < 1e-9 := not_lt.mpr hn2
  have hn2ne : n2 ≠ 0 := ne_of_gt hn2pos
  have hetapos : 0 < refractEta n1 n2 := div_pos hn1 hn2pos
  refine ⟨?_, ?_, ?_, ?_, ?_⟩
  · simp only [refractSin2T, refractEta, refractCosThetaI]
    ring
  · -- Snell's law in the refracting branch
    intro hs
    have hslt : ¬ refractSin2T vz vy nx ny n1 n2 < 0 := not_lt.mpr hs
    have hct2 := Real.sq_sqrt hs
    have hsum : refractOutDz vz vy nx ny n1 n2 * refractOutDz vz vy nx ny n1 n2
        + refractOutDy vz vy nx ny n1 n2 * refractOutDy vz vy nx ny n1 n2 = 1 := by
      simp only [refractOutDz, refractOutDy, refractCoeff, refractSin2T, refractEta,
        refractCosThetaI] at hct2 ⊢
      linear_combination (n1 / n2) ^ 2 * hv +
        (n1 / n2 * -(nx * vz + ny * vy) -
          Real.sqrt (1 - n1 / n2 * (n1 / n2) *
            (1 - -(nx * vz + ny * vy) * -(nx * vz + ny * vy)))) ^ 2 * hn + hct2
    have hnrm : refractNrm vz vy nx ny n1 n2 = 1 := by
      rw [refractNrm, hsum, Real.sqrt_one]
    have hnl : ¬ refractNrm vz vy nx ny n1 n2 < 1e-12 := by
      rw [hnrm]; norm_num
    have hre : refract vz vy nx ny n1 n2
        = (refractOutDz vz vy nx ny n1 n2, refractOutDy vz vy nx ny n1 n2, false) := by
      rw [refract, if_neg hδ, if_neg hslt, if_neg hnl, hnrm, div_one, div_one]
    refine ⟨by rw [hre], ?_⟩
    rw [hre]
    have hcross : refractOutDz vz vy nx ny n1 n2 * ny
        - refractOutDy vz vy nx ny n1 n2 * nx
        = refractEta n1 n2 * (vz * ny - vy * nx) := by
      simp only [refractOutDz, refractOutDy, refractCoeff, refractEta, refractCosThetaI]
      ring
    show n1 * |vz * ny - vy * nx|
        = n2 * |refractOutDz vz vy nx ny n1 n2 * ny - refractOutDy vz vy nx ny n1 n2 * nx|
    rw [hcross, abs_mul, abs_of_pos hetapos, refractEta]
    field_simp
  · -- normal incidence returns the incident direction
    intro hD
    have hz : (vz + nx) ^ 2 + (vy + ny) ^ 2 = 0 := by
      linear_combination hv + hn + 2 * hD
    have h1 : vz + nx = 0 := by nlinarith [sq_nonneg (vz + nx), sq_nonneg (vy + ny)]
    have h2 : vy + ny = 0 := by nlinarith [sq_nonneg (vz + nx), sq_nonneg (vy + ny)]
    have hvz : vz = -nx := by linarith
    have hvy : vy = -ny := by linarith
    have hS : refractSin2T vz vy nx ny n1 n2 = 1 := by
      simp only [refractSin2T, refractEta, refractCosThetaI, hD]
      norm_num
    have hslt : ¬ refractSin2T vz vy nx ny n1 n2 < 0 := by rw [hS]; norm_num
    have hQ : Real.sqrt (refractSin2T vz vy nx ny n1 n2) = 1 := by
      rw [hS, Real.sqrt_one]
    have hdz : refractOutDz vz vy nx ny n1 n2 = vz := by
      simp only [refractOutDz, refractCoeff]
      rw [hQ]
      simp only [refractEta, refractCosThetaI]
      rw [hD, hvz]
      ring
    have hdy : refractOutDy vz vy nx ny n1 n2 = vy := by
      simp only [refractOutDy, refractCoeff]
      rw [hQ]
      simp only [refractEta, refractCosThetaI]
      rw [hD, hvy]
      ring
    have hone : vz * vz + vy * vy = 1 := by linear_combination hv
    have hnrm : refractNrm vz vy nx ny n1 n2 = 1 := by
      rw [refractNrm, hdz, hdy, hone, Real.sqrt_one]
    have hnl : ¬ refractNrm vz vy nx ny n1 n2 < 1e-12 := by rw [hnrm]; norm_num
    rw [refract, if_neg hδ, if_neg hslt, if_neg hnl, hnrm, div_one, div_one, hdz, hdy]
  · -- n1 = n2 returns the incident direction
    intro h12
    subst h12
    have hE : refractEta n1 n1 = 1 := by
      rw [refractEta]; exact div_self hn2ne
    have hCpos : 0 < refractCosThetaI vz vy nx ny := by
      rw [refractCosThetaI]; linarith
    have hS : refractSin2T vz vy nx ny n1 n1
        = refractCosThetaI vz vy nx ny * refractCosThetaI vz vy nx ny := by
      rw [refractSin2T, hE]; ring
    have hs0 : 0 ≤ refractSin2T vz vy nx ny n1 n1 := by
      rw [hS]; positivity
    have hslt : ¬ refractSin2T vz vy nx ny n1 n1 < 0 := not_lt.mpr hs0
    have hQ : Real.sqrt (refractSin2T vz vy nx ny n1 n1)
        = refractCosThetaI vz vy nx ny := by
      rw [hS]; exact Real.sqrt_mul_self hCpos.le
    have hk : refractCoeff vz vy nx ny n1 n1 = 0 := by
      rw [refractCoeff, hE, hQ]; ring
    have hdz : refractOutDz vz vy nx ny n1 n1 = vz := by
      rw [refractOutDz, hk, hE]; ring
    have hdy : refractOutDy vz vy nx ny n1 n1 = vy := by
      rw [refractOutDy, hk, hE]; ring
    have hone : vz * vz + vy * vy = 1 := by linear_combination hv
    have hnrm : refractNrm vz vy nx ny n1 n1 = 1 := by
      rw [refractNrm, hdz, hdy, hone, Real.sqrt_one]
    have hnl : ¬ refractNrm vz vy nx ny n1 n1 < 1e-12 := by rw [hnrm]; norm_num
    rw [refract, if_neg hδ, if_neg hslt, if_neg hnl, hnrm, div_one, div_one, hdz, hdy]
  · -- negative radicand reports total internal reflection
    intro hneg
    rw [refract, if_neg hδ, if_pos hneg]

/-- C1 counterexample to the claim as stated: both indices positive
(`n1 = n2 = 1e-10`), unit vectors, normal incidence, radicand `= 1 ≥ 0`,
yet `refract` reports TIR with a zero direction instead of returning the
incident direction (`n2 < 1e-9` guard). -/
theorem refract_claim_counterexample :
    refract 1 0 (-1) 0 1e-10 1e-10 = (0, 0, true) ∧
    (0 : ℝ) < 1e-10 ∧
    ((1 : ℝ) ^ 2 + 0 ^ 2 = 1 ∧ ((-1 : ℝ)) ^ 2 + 0 ^ 2 = 1 ∧
      (-1 : ℝ) * 1 + 0 * 0 = -1) ∧
    (0 : ℝ) ≤ 1 - ((1e-10 : ℝ) / 1e-10) ^ 2 * (1 - ((-1 : ℝ) * 1 + 0 * 0) ^ 2) ∧
    refract 1 0 (-1) 0 1e-10 1e-10 ≠ (1, 0, false) := by
  have h : refract 1 0 (-1) 0 1e-10 1e-10 = (0, 0, true) := by
    rw [refract, if_pos (by norm_num : (1e-10 : ℝ) < 1e-9)]
  refine ⟨h, by norm_num, ⟨by norm_num, by norm_num, by norm_num⟩, by norm_num, ?_⟩
  rw [h]
  simp

/-- C1 witness: the amended theorem applied at `d = (1,0)`, `N = (-1,0)`,
`n1 = 1`, `n2 = 1.5`. -/
theorem refract_snell_amended_witness :
    ((1 : ℝ) ^ 2 + 0 ^ 2 = 1) ∧ (((-1) : ℝ) ^ 2 + 0 ^ 2 = 1) ∧
    ((-1 : ℝ) * 1 + 0 * 0 < 0) ∧ ((0 : ℝ) < 1) ∧ ((1e-9 : ℝ) ≤ 1.5) ∧
    ((refractSin2T 1 0 (-1) 0 1 1.5
        = 1 - ((1 : ℝ) / 1.5) ^ 2 * (1 - ((-1 : ℝ) * 1 + 0 * 0) ^ 2)) ∧
     (0 ≤ refractSin2T 1 0 (-1) 0 1 1.5 →
        (refract 1 0 (-1) 0 1 1.5).2.2 = false ∧
        (1 : ℝ) * |1 * 0 - 0 * (-1)| =
          1.5 * |(refract 1 0 (-1) 0 1 1.5).1 * 0 -
                (refract 1 0 (-1) 0 1 1.5).2.1 * (-1)|) ∧
     ((-1 : ℝ) * 1 + 0 * 0 = -1 → refract 1 0 (-1) 0 1 1.5 = (1, 0, false)) ∧
     ((1 : ℝ) = 1.5 → refract 1 0 (-1) 0 1 1.5 = (1, 0, false)) ∧
     (refractSin2T 1 0 (-1) 0 1 1.5 < 0 →
        (refract 1 0 (-1) 0 1 1.5).2.2 = true)) :=
  ⟨by norm_num, by norm_num, by norm_num, by norm_num, by norm_num,
   refract_snell_amended 1 0 (-1) 0 1 1.5 (by norm_num) (by norm_num)
     (by norm_num) (by norm_num) (by norm_num)⟩

/-! ## C2: curved-surface intersection -/

/-- C2: for a curved surface, `trace_ray` solves the quadratic obtained by
substituting the parametric ray into `(z - z_center)² + y² = R²` with
`z_center = z_vertex + R`; a negative discriminant is the "missed surface"
outcome; a chosen `t` is the smallest root strictly above `T_MIN` and the
hit point lies on the circle; "numerical" holds iff the discriminant is
non-negative but no root exceeds `T_MIN`; and on the missed/numerical
outcomes the `trace_ray` loop terminates recording no hit point. -/
theorem trace_sphere_intersection (rayZ rayY rayDz rayDy zVertex radius : ℝ)
    (hdz : rayDz ≠ 0) :
    (sphereDisc rayZ rayY rayDz rayDy zVertex radius < 0 →
      sphereIntersect rayZ rayY rayDz rayDy zVertex radius = .missed) ∧
    (∀ t, sphereIntersect rayZ rayY rayDz rayDy zVertex radius = .hit t →
      T_MIN < t ∧
      sphereA rayDz rayDy * t ^ 2
        + sphereB rayZ rayY rayDz rayDy zVertex radius * t
        + sphereCoefC rayZ rayY zVertex radius = 0 ∧
      (rayZ + t * rayDz - (zVertex + radius)) ^ 2 + (rayY + t * rayDy) ^ 2
        = radius ^ 2 ∧
      (∀ u, sphereA rayDz rayDy * u ^ 2
          + sphereB rayZ rayY rayDz rayDy zVertex radius * u
          + sphereCoefC rayZ rayY zVertex radius = 0 → T_MIN < u → t ≤ u)) ∧
    (0 ≤ sphereDisc rayZ rayY rayDz rayDy zVertex radius →
      (sphereIntersect rayZ rayY rayDz rayDy zVertex radius = .numerical ↔
        ∀ u, sphereA rayDz rayDy * u ^ 2
          + sphereB rayZ rayY rayDz rayDy zVertex radius * u
          + sphereCoefC rayZ rayY zVertex radius = 0 → u ≤ T_MIN)) ∧
    (∀ (surfaces : List Surface) (wvlNm : ℝ) (i : ℕ) (s : Surface)
        (rest : List (Surface × ℝ)) (nBefore nAfter : ℝ),
      i < MAX_SURFACES →
      get_n_after surfaces i s wvlNm = .ok nAfter →
      ¬ |rayDz| < 1e-12 →
      s.radius = radius →
      ¬ (s.radius = 0 ∨ |s.radius| > 1e10) →
      (sphereIntersect rayZ rayY rayDz rayDy zVertex radius = .missed ∨
       sphereIntersect rayZ rayY rayDz rayDy zVertex radius = .numerical) →
      traceLoop surfaces wvlNm i ((s, zVertex) :: rest) rayZ rayY rayDz rayDy nBefore
        = .ok ⟨[], false, rayZ, rayY, rayDz, rayDy⟩) := by
  have hApos : 0 < sphereA rayDz rayDy := by
    rw [sphereA]; positivity
  have hAne : sphereA rayDz rayDy ≠ 0 := ne_of_gt hApos
  refine ⟨?_, ?_, ?_, ?_⟩
  · intro h
    rw [sphereIntersect, if_pos h]
  · intro t ht
    by_cases hdisc : sphereDisc rayZ rayY rayDz rayDy zVertex radius < 0
    · rw [sphereIntersect, if_pos hdisc] at ht
      exact absurd ht (by simp)
    · have hD : 0 ≤ sphereDisc rayZ rayY rayDz rayDy zVertex radius := not_lt.mp hdisc
      have hq : Real.sqrt (sphereDisc rayZ rayY rayDz rayDy zVertex radius) ^ 2
          = sphereB rayZ rayY rayDz rayDy zVertex radius ^ 2
            - 4 * sphereA rayDz rayDy * sphereCoefC rayZ rayY zVertex radius := by
        rw [Real.sq_sqrt hD, sphereDisc]
      have hroots := fun u => quadRootsIff (sphereA rayDz rayDy)
        (sphereB rayZ rayY rayDz rayDy zVertex radius)
        (sphereCoefC rayZ rayY zVertex radius)
        (Real.sqrt (sphereDisc rayZ rayY rayDz rayDy zVertex radius)) u hAne hq
      have ht1root : sphereA rayDz rayDy * sphereT1 rayZ rayY rayDz rayDy zVertex radius ^ 2
          + sphereB rayZ rayY rayDz rayDy zVertex radius * sphereT1 rayZ rayY rayDz rayDy zVertex radius
          + sphereCoefC rayZ rayY zVertex radius = 0 :=
        (hroots _).mpr (Or.inl (by rw [sphereT1]))
      have ht2root : sphereA rayDz rayDy * sphereT2 rayZ rayY rayDz rayDy zVertex radius ^ 2
          + sphereB rayZ rayY rayDz rayDy zVertex radius * sphereT2 rayZ rayY rayDz rayDy zVertex radius
          + sphereCoefC rayZ rayY zVertex radius = 0 :=
        (hroots _).mpr (Or.inr (by rw [sphereT2]))
      rw [sphereIntersect, if_neg hdisc] at ht
      have hcircle : ∀ u, sphereA rayDz rayDy * u ^ 2
          + sphereB rayZ rayY rayDz rayDy zVertex radius * u
          + sphereCoefC rayZ rayY zVertex radius = 0 →
          (rayZ + u * rayDz - (zVertex + radius)) ^ 2 + (rayY + u * rayDy) ^ 2
            = radius ^ 2 := by
        intro u hu
        have := sphereCircleSubst rayZ rayY rayDz rayDy zVertex radius u
        linarith [this, hu]
      by_cases h1 : sphereT1 rayZ rayY rayDz rayDy zVertex radius > T_MIN
      · rw [if_pos h1] at ht
        by_cases h2 : sphereT2 rayZ rayY rayDz rayDy zVertex radius > T_MIN
        · -- both roots above T_MIN: t = min t1 t2
          rw [if_pos h2, SphereHit.hit.injEq] at ht
          subst ht
          refine ⟨lt_min h1 h2, ?_, ?_, ?_⟩
          · rcases min_cases (sphereT1 rayZ rayY rayDz rayDy zVertex radius)
                (sphereT2 rayZ rayY rayDz rayDy zVertex radius) with hmc | hmc <;>
              rw [hmc.1]
            · exact ht1root
            · exact ht2root
          · rcases min_cases (sphereT1 rayZ rayY rayDz rayDy zVertex radius)
                (sphereT2 rayZ rayY rayDz rayDy zVertex radius) with hmc | hmc <;>
              rw [hmc.1]
            · exact hcircle _ ht1root
            · exact hcircle _ ht2root
          · intro u hu _
            rcases (hroots u).mp hu with rfl | rfl
            · rw [← sphereT1]; exact min_le_left _ _
            · rw [← sphereT2]; exact min_le_right _ _
        · -- t1 above, t2 below: t = t1
          rw [if_neg h2, SphereHit.hit.injEq] at ht
          subst ht
          refine ⟨h1, ht1root, hcircle _ ht1root, ?_⟩
          intro u hu hu2
          rcases (hroots u).mp hu with rfl | rfl
          · rw [← sphereT1]
          · rw [← sphereT2] at hu2 ⊢
            exact absurd hu2 h2
      · rw [if_neg h1] at ht
        by_cases h2 : sphereT2 rayZ rayY rayDz rayDy zVertex radius > T_MIN
        · -- t1 below, t2 above: t = t2
          rw [if_pos h2, SphereHit.hit.injEq] at ht
          subst ht
          refine ⟨h2, ht2root, hcircle _ ht2root, ?_⟩
          intro u hu hu2
          rcases (hroots u).mp hu with rfl | rfl
          · rw [← sphereT1] at hu2 ⊢
            exact absurd hu2 h1
          · rw [← sphereT2]
        · rw [if_neg h2] at ht
          exact absurd ht (by simp)
  · intro hD
    have hq : Real.sqrt (sphereDisc rayZ rayY rayDz rayDy zVertex radius) ^ 2
        = sphereB rayZ rayY rayDz rayDy zVertex radius ^ 2
          - 4 * sphereA rayDz rayDy * sphereCoefC rayZ rayY zVertex radius := by
      rw [Real.sq_sqrt hD, sphereDisc]
    have hroots := fun u => quadRootsIff (sphereA rayDz rayDy)
      (sphereB rayZ rayY rayDz rayDy zVertex radius)
      (sphereCoefC rayZ rayY zVertex radius)
      (Real.sqrt (sphereDisc rayZ rayY rayDz rayDy zVertex radius)) u hAne hq
    have ht1root : sphereA rayDz rayDy * sphereT1 rayZ rayY rayDz rayDy zVertex radius ^ 2
        + sphereB rayZ rayY rayDz rayDy zVertex radius * sphereT1 rayZ rayY rayDz rayDy zVertex radius
        + sphereCoefC rayZ rayY zVertex radius = 0 :=
      (hroots _).mpr (Or.inl (by rw [sphereT1]))
    have ht2root : sphereA rayDz rayDy * sphereT2 rayZ rayY rayDz rayDy zVertex radius ^ 2
        + sphereB rayZ rayY rayDz rayDy zVertex radius * sphereT2 rayZ rayY rayDz rayDy zVertex radius
        + sphereCoefC rayZ rayY zVertex radius = 0 :=
      (hroots _).mpr (Or.inr (by rw [sphereT2]))
    constructor
    · intro hnum u hu
      rw [sphereIntersect, if_neg (not_lt.mpr hD)] at hnum
      by_cases h1 : sphereT1 rayZ rayY rayDz rayDy zVertex radius > T_MIN
      · rw [if_pos h1] at hnum
        by_cases h2 : sphereT2 rayZ rayY rayDz rayDy zVertex radius > T_MIN
        · rw [if_pos h2] at hnum; exact absurd hnum (by simp)
        · rw [if_neg h2] at hnum; exact absurd hnum (by simp)
      · rw [if_neg h1] at hnum
        by_cases h2 : sphereT2 rayZ rayY rayDz rayDy zVertex radius > T_MIN
        · rw [if_pos h2] at hnum; exact absurd hnum (by simp)
        · rcases (hroots u).mp hu with rfl | rfl
          · rw [← sphereT1]; exact not_lt.mp h1
          · rw [← sphereT2]; exact not_lt.mp h2
    · intro hall
      have h1 : ¬ sphereT1 rayZ rayY rayDz rayDy zVertex radius > T_MIN :=
        not_lt.mpr (hall _ ht1root)
      have h3 : ¬ sphereT2 rayZ rayY rayDz rayDy zVertex radius > T_MIN :=
        not_lt.mpr (hall _ ht2root)
      rw [sphereIntersect, if_neg (not_lt.mpr hD), if_neg h1, if_neg h3]
  · intro surfaces wvlNm i s rest nBefore nAfter hi hna hslow hrad hcurv hmn
    have hmax : ¬ MAX_SURFACES ≤ i := not_le.mpr hi
    rw [← hrad] at hmn
    have hsh : surfaceHit s zVertex rayZ rayY rayDz rayDy = none := by
      rcases hmn with hmiss | hnum
      · simp only [surfaceHit, if_neg hcurv, hmiss]
      · simp only [surfaceHit, if_neg hcurv, hnum]
    simp only [traceLoop, if_neg hmax, hna, if_neg hslow, hsh]

/-- C2 witness: a concrete curved-surface hit (`R = -100`, vertex at
`z = 10`, axial ray): the chosen root is `t = 10` and the conclusions of
the intersection theorem hold there. -/
theorem trace_sphere_intersection_witness :
    ((1 : ℝ) ≠ 0) ∧
    (∀ t, sphereIntersect 0 0 1 0 10 (-100) = .hit t →
      T_MIN < t ∧
      sphereA 1 0 * t ^ 2 + sphereB 0 0 1 0 10 (-100) * t
        + sphereCoefC 0 0 10 (-100) = 0 ∧
      ((0 : ℝ) + t * 1 - (10 + -100)) ^ 2 + ((0 : ℝ) + t * 0) ^ 2 = (-100 : ℝ) ^ 2 ∧
      (∀ u, sphereA 1 0 * u ^ 2 + sphereB 0 0 1 0 10 (-100) * u
          + sphereCoefC 0 0 10 (-100) = 0 → T_MIN < u → t ≤ u)) :=
  ⟨by norm_num, (trace_sphere_intersection 0 0 1 0 10 (-100) (by norm_num)).2.1⟩


/-! ## C6: chromatic sweep shape (amended: build exceptions abort it) -/

/-- Counting characterization of the wavelength `while` loop: if `cnt`
steps fit below the maximum and step `cnt` does not, the loop yields the
arithmetic progression of length `cnt` (for any sufficient fuel). -/
theorem wvlListAux_count (mx st : ℝ) :
    ∀ (cnt n : ℕ) (w : ℝ), cnt ≤ n →
      (∀ k : ℕ, k < cnt → w + k * st ≤ mx) →
      ¬ (w + cnt * st ≤ mx) →
      wvlListAux mx st n w = (List.range cnt).map (fun k : ℕ => w + k * st) := by
  intro cnt
  induction cnt with
  | zero =>
      intro n w _ _ hfail
      have hw : ¬ w ≤ mx := by simpa using hfail
      cases n with
      | zero => simp [wvlListAux]
      | succ m => rw [wvlListAux, if_neg hw]; simp
  | succ c ih =>
      intro n w hn hall hfail
      obtain ⟨m, rfl⟩ : ∃ m, n = m + 1 := ⟨n - 1, by omega⟩
      have hw : w ≤ mx := by simpa using hall 0 (Nat.succ_pos c)
      rw [wvlListAux, if_pos hw]
      rw [ih m (w + st) (by omega) ?_ ?_]
      · rw [List.range_succ_eq_map]
        simp only [List.map_cons, List.map_map]
        congr 1
        · push_cast; ring
        · apply List.map_congr_left
          intro x _
          simp only [Function.comp_apply]
          push_cast; ring
      · intro k hk
        have h1 := hall (k + 1) (by omega)
        have h2 : w + st + (k : ℝ) * st = w + ((k : ℕ) + 1 : ℕ) * st := by
          push_cast; ring
        rw [h2]; exact h1
      · intro hc
        apply hfail
        have h2 : w + ((c : ℕ) + 1 : ℕ) * st = w + st + (c : ℝ) * st := by
          push_cast; ring
        rw [h2]; exact hc

/-- The sweep 400–1100 step 10 is the 71-term arithmetic progression. -/
theorem wvlList_400_1100_10 :
    wvlList 400 1100 10 = (List.range 71).map (fun k : ℕ => 400 + (k : ℝ) * 10) := by
  rw [wvlList]
  apply wvlListAux_count 1100 10 71 1000 400 (by norm_num)
  · intro k hk
    have hk' : (k : ℝ) ≤ 70 := by exact_mod_cast Nat.lt_succ_iff.mp hk
    linarith
  · push_cast; norm_num

/-- If the pre-`try` surf-data build succeeds at every swept wavelength,
the sweep loop returns one `(w, chromVal ...)` pair per wavelength. -/
theorem chromLoop_ok (bflOf : List SurfDatum → ℝ → Except String PyVal)
    (index : String → Option MaterialEntry) (stackSurfaces : List Surface) :
    ∀ ws : List ℝ,
      (∀ w ∈ ws, ∃ sd, optical_stack_to_surf_data index stackSurfaces w = .ok sd) →
      ∃ l, chromLoop bflOf index stackSurfaces ws = .ok l ∧
        l.length = ws.length ∧ l.map Prod.fst = ws ∧
        ∀ p ∈ l, ∃ sd, optical_stack_to_surf_data index stackSurfaces p.1 = .ok sd ∧
          p.2 = chromVal (bflOf sd p.1) := by
  intro ws
  induction ws with
  | nil => exact fun _ => ⟨[], rfl, rfl, rfl, by simp⟩
  | cons w rest ih =>
      intro hall
      obtain ⟨sd, hsd⟩ := hall w (List.mem_cons_self _ _)
      obtain ⟨l, hl, hlen, hmap, hmem⟩ :=
        ih (fun w' hw' => hall w' (List.mem_cons_of_mem _ hw'))
      refine ⟨(w, chromVal (bflOf sd w)) :: l, ?_, by simp [hlen], by simp [hmap], ?_⟩
      · simp only [chromLoop, hsd, hl]
      · intro p hp
        rcases List.mem_cons.mp hp with rfl | hp'
        · exact ⟨sd, hsd, rfl⟩
        · exact hmem p hp'

/-- If some wavelength's pre-`try` build raises and every earlier one
succeeds, the exception escapes the whole sweep loop. -/
theorem chromLoop_error (bflOf : List SurfDatum → ℝ → Except String PyVal)
    (index : String → Option MaterialEntry) (stackSurfaces : List Surface)
    (w : ℝ) (post : List ℝ) (e : String) :
    ∀ pre : List ℝ,
      (∀ w' ∈ pre, ∃ sd, optical_stack_to_surf_data index stackSurfaces w' = .ok sd) →
      optical_stack_to_surf_data index stackSurfaces w = .error e →
      chromLoop bflOf index stackSurfaces (pre ++ w :: post) = .error e := by
  intro pre
  induction pre with
  | nil =>
      intro _ he
      simp only [List.nil_append, chromLoop, he]
  | cons p ps ih =>
      intro hok he
      obtain ⟨sd, hsd⟩ := hok p (List.mem_cons_self _ _)
      have htl := ih (fun w' hw' => hok w' (List.mem_cons_of_mem _ hw')) he
      simp only [List.cons_append, chromLoop, hsd, List.append_eq, htl]

/-- C6 (amended): over 400–1100 nm step 10, when the surf-data build
(run before the per-wavelength `try`) succeeds at each of the 71 swept
wavelengths, `run_chromatic_shift` on a nonempty stack returns exactly 71
pairs, one per swept wavelength in order; each pair's BFL is the recorded
value of the rayoptics call: `None`-as-NaN whenever that call raised or
returned a non-finite value, and a finite recorded value is exactly the
finite BFL the call returned.  (The original "never raises" is refuted
separately: a surf-data build exception aborts the whole sweep.) -/
theorem run_chromatic_shift_spec
    (bflOf : List SurfDatum → ℝ → Except String PyVal)
    (index : String → Option MaterialEntry)
    (stackSurfaces : List Surface) (hne : stackSurfaces ≠ [])
    (hbuild : ∀ w ∈ wvlList 400 1100 10,
      ∃ sd, optical_stack_to_surf_data index stackSurfaces w = .ok sd) :
    ∃ l : List (ℝ × Option ℝ),
      run_chromatic_shift bflOf index stackSurfaces 400 1100 10 = .ok l ∧
      l.length = 71 ∧
      l.map Prod.fst = wvlList 400 1100 10 ∧
      ∀ p ∈ l, ∃ sd,
        optical_stack_to_surf_data index stackSurfaces p.1 = .ok sd ∧
        p.2 = chromVal (bflOf sd p.1) ∧
        ((∃ e, bflOf sd p.1 = .error e) → p.2 = none) ∧
        (∀ x : ℝ, p.2 = some x → bflOf sd p.1 = .ok (.fin x)) := by
  obtain ⟨l, hl, hlen, hmap, hmem⟩ :=
    chromLoop_ok bflOf index stackSurfaces (wvlList 400 1100 10) hbuild
  refine ⟨l, ?_, ?_, hmap, ?_⟩
  · rw [run_chromatic_shift, if_neg hne, hl]
  · rw [hlen, wvlList_400_1100_10]
    simp
  · intro p hp
    obtain ⟨sd, hsd, hval⟩ := hmem p hp
    refine ⟨sd, hsd, hval, ?_, ?_⟩
    · rintro ⟨e, he⟩
      rw [hval, he, chromVal]
    · intro x hx
      rw [hval] at hx
      cases hb : bflOf sd p.1 with
      | error e => rw [hb, chromVal] at hx; exact Option.noConfusion hx
      | ok v =>
          rw [hb, chromVal] at hx
          cases v with
          | fin y =>
              simp only [PyVal.isFinite, if_true, PyVal.toReal,
                Option.some.injEq] at hx
              rw [hx]
          | nan => simp [PyVal.isFinite] at hx
          | inf => simp [PyVal.isFinite] at hx
          | ninf => simp [PyVal.isFinite] at hx


/-- Surf-data build for the plain fallback-index singlet used in the C6
witness: every wavelength yields the same single row. -/
theorem chromStackFallback_eq (w : ℝ) :
    optical_stack_to_surf_data (fun _ => none)
      [{ refractiveIndex := some (.fin 1.5) }] w
      = .ok [⟨0, 0, .idx (.fin 1.5), 0⟩] := by
  have hhr : is_hr_coating "" = false := by decide
  have h15 : pyOrDefault (some (.fin 1.5)) 1 = .fin 1.5 := by
    simp only [pyOrDefault]
    rw [if_neg (by norm_num : ¬ (1.5 : ℝ) = 0)]
  have hri : refractive_index_at_wavelength_backend (fun _ => none) w "" (.fin 1.5)
      = .ok (.fin 1.5) := by
    rw [refractive_index_at_wavelength_backend, if_pos (by decide)]
  simp only [optical_stack_to_surf_data, surfDatumOf, hhr, Bool.false_eq_true,
    if_false, h15, hri]
  rw [if_neg (by simp : ¬ ((0 : ℝ) ≠ 0))]
  rw [if_neg (fun hc => absurd hc.1 (by decide) :
    ¬ ("" = "Glass" ∧ PyVal.gtR (.fin 1.5) 1.01))]

/-- C6 witness: a concrete nonempty stack whose build succeeds at every
wavelength, with a constant finite external BFL; the sweep returns the 71
pairs with the stated per-pair properties. -/
theorem run_chromatic_shift_spec_witness :
    (([{ refractiveIndex := some (.fin 1.5) }] : List Surface) ≠ []) ∧
    ∃ l : List (ℝ × Option ℝ),
      run_chromatic_shift (fun _ _ => .ok (.fin 50)) (fun _ => none)
        [{ refractiveIndex := some (.fin 1.5) }] 400 1100 10 = .ok l ∧
      l.length = 71 ∧
      l.map Prod.fst = wvlList 400 1100 10 ∧
      ∀ p ∈ l, ∃ sd,
        optical_stack_to_surf_data (fun _ => none)
          [{ refractiveIndex := some (.fin 1.5) }] p.1 = .ok sd ∧
        p.2 = chromVal (.ok (.fin 50)) ∧
        ((∃ e, (Except.ok (.fin 50) : Except String PyVal) = .error e) → p.2 = none) ∧
        (∀ x : ℝ, p.2 = some x →
          (Except.ok (.fin 50) : Except String PyVal) = .ok (.fin x)) :=
  ⟨by simp,
    run_chromatic_shift_spec (fun _ _ => .ok (.fin 50)) (fun _ => none)
      [{ refractiveIndex := some (.fin 1.5) }] (by simp)
      (fun w _ => ⟨_, chromStackFallback_eq w⟩)⟩


/-- Surf-data build for the Sellmeier singlet with C₁ = 0.25: succeeds at
any wavelength whose squared micron value is not exactly 0.25. -/
theorem chromStackSellmeier_ok (w : ℝ)
    (hw : ¬ w * 1e-3 * (w * 1e-3) - 1 / 4 = 0) :
    ∃ sd, optical_stack_to_surf_data (fun _ => none)
      [{ sellmeierCoefficients := some ⟨[1], [1 / 4]⟩ }] w = .ok sd := by
  have hhr : is_hr_coating "" = false := by decide
  have hz : ((([1] : List ℝ).zip ([1 / 4] : List ℝ)).take 3) = [(1, 1 / 4)] := rfl
  refine ⟨[⟨0, 0, .idx (.fin (Real.sqrt (max (1 + 1 * (w * 1e-3 * (w * 1e-3))
      / (w * 1e-3 * (w * 1e-3) - 1 / 4)) 1.0))), 0⟩], ?_⟩
  simp only [optical_stack_to_surf_data, surfDatumOf, hhr, Bool.false_eq_true,
    if_false, n_from_sellmeier_backend, hz, sellmeierSum, if_neg hw]
  rw [if_neg (by simp : ¬ ((0 : ℝ) ≠ 0))]
  rw [if_neg (fun hc => absurd hc.1 (by decide) :
    ¬ ("" = "Glass" ∧ PyVal.gtR (.fin (Real.sqrt (max (1 + 1 * (w * 1e-3 * (w * 1e-3))
      / (w * 1e-3 * (w * 1e-3) - 1 / 4)) 1.0))) 1.01))]

/-- Surf-data build for the same singlet: raises `ZeroDivisionError` when
the Sellmeier denominator is exactly zero. -/
theorem chromStackSellmeier_err (w : ℝ)
    (hw : w * 1e-3 * (w * 1e-3) - 1 / 4 = 0) :
    optical_stack_to_surf_data (fun _ => none)
      [{ sellmeierCoefficients := some ⟨[1], [1 / 4]⟩ }] w
      = .error "ZeroDivisionError" := by
  have hhr : is_hr_coating "" = false := by decide
  have hz : ((([1] : List ℝ).zip ([1 / 4] : List ℝ)).take 3) = [(1, 1 / 4)] := rfl
  simp only [optical_stack_to_surf_data, surfDatumOf, hhr, Bool.false_eq_true,
    if_false, n_from_sellmeier_backend, hz, sellmeierSum, if_pos hw]

/-- The 71 swept indices split at the eleventh wavelength (500 nm). -/
theorem range_split_71 :
    List.range 71 = List.range 10 ++ 10 :: (List.range 60).map (fun k => 11 + k) := by
  decide

/-- C6 counterexample: on a stack whose Sellmeier denominator vanishes at
500 nm, the sweep raises `ZeroDivisionError` (the build runs before the
per-wavelength `try`), instead of recording NaN and continuing. -/
theorem chromatic_shift_abort_counterexample :
    run_chromatic_shift (fun _ _ => .ok (.fin 50)) (fun _ => none)
      [{ sellmeierCoefficients := some ⟨[1], [1 / 4]⟩ }] 400 1100 10
      = .error "ZeroDivisionError" := by
  rw [run_chromatic_shift, if_neg (by simp), wvlList_400_1100_10, range_split_71,
    List.map_append, List.map_cons]
  apply chromLoop_error
  · intro w' hw'
    obtain ⟨k, hk, rfl⟩ := List.mem_map.mp hw'
    have hk10 : k < 10 := List.mem_range.mp hk
    apply chromStackSellmeier_ok
    have hk9 : (k : ℝ) ≤ 9 := by exact_mod_cast Nat.lt_succ_iff.mp hk10
    have hk0 : (0 : ℝ) ≤ (k : ℝ) := Nat.cast_nonneg k
    have hksq : (k : ℝ) * k ≤ 81 := by nlinarith
    intro h
    nlinarith [h, hk9, hk0, hksq]
  · apply chromStackSellmeier_err
    push_cast
    norm_num


/-! ## C7: all-zero tolerances give an identity jitter -/

/-- C7 (supported part): with every `radiusTolerance` and
`thicknessTolerance` equal to 0, `_jitter_surfaces` returns every surface
unchanged, whatever the random draws are — no perturbation is applied.
(The claim's conclusion about `run_monte_carlo` returning `rmsSpread ≈ 0`
is unreachable: the module fails to parse, see RESULTS.) -/
theorem jitter_surfaces_zero_tolerance (draws : ℕ → ℝ) :
    ∀ surfaces : List Surface,
      (∀ s ∈ surfaces, s.radiusTolerance = 0 ∧ s.thicknessTolerance = 0) →
      jitter_surfaces draws surfaces = surfaces := by
  have H : ∀ ss : List Surface,
      (∀ s ∈ ss, s.radiusTolerance = 0 ∧ s.thicknessTolerance = 0) →
      ∀ i k : ℕ, jitterAux draws none i k ss = ss := by
    intro ss
    induction ss with
    | nil => intro _ i k; rfl
    | cons s rest ih =>
        intro h i k
        have hs := h s (List.mem_cons_self _ _)
        simp only [jitterAux]
        rw [if_neg (by simp)]
        rw [if_neg (by rw [hs.1]; norm_num : ¬ s.radiusTolerance > 0)]
        rw [if_neg (by rw [hs.2]; norm_num : ¬ s.thicknessTolerance > 0)]
        rw [ih (fun s' hs' => h s' (List.mem_cons_of_mem _ hs')) (i + 1) k]
  intro surfaces h
  exact H surfaces h 0 0

/-- C7 witness: a concrete surface with both tolerances zero is returned
unchanged under a nonzero draw sequence. -/
theorem jitter_surfaces_zero_tolerance_witness :
    (∀ s ∈ ([{ radius := 100, thickness := 5 }] : List Surface),
      s.radiusTolerance = 0 ∧ s.thicknessTolerance = 0) ∧
    jitter_surfaces (fun _ => 0.37) [{ radius := 100, thickness := 5 }]
      = [{ radius := 100, thickness := 5 }] :=
  ⟨by simp, jitter_surfaces_zero_tolerance (fun _ => 0.37) _ (by simp)⟩

end
